import Mathlib

/-!
Verification development for the auto_upload_tiktok pipeline.

This file gives a shallow embedding, in Lean, of the core runtime engine of
the repository: the SQLite-backed stores for jobs ("accounts") and work items
("videos"), the per-item download → upload pipeline, the discovery loop, the
bootstrapper, and the management update operation.  External effects (HTTP
calls, the extractor sub-process, repository writes) are modelled as explicit
oracles: each is a function supplied through an environment record, and every
call the code makes is either dispatched to the oracle or recorded in an
explicit event trace.  Machine time is modelled as `Int` seconds; Go's zero
`time.Time` is modelled as `Option.none` where the code tests `IsZero`.
-/

set_option autoImplicit false
set_option maxRecDepth 4000

namespace AutoUpload

/-- Abstract UTC instants, in seconds.  Go durations are converted at the
same scale (24h = 86400, expires_in is already in seconds). -/
abbrev Time := Int

/-- internal/domain: `VideoStatus` constants (`pending`, `downloading`,
`downloaded`, `uploading`, `completed`, `failed`). -/
inductive VideoStatus
  | pending
  | downloading
  | downloaded
  | uploading
  | completed
  | failed
deriving DecidableEq, Repr

/-- internal/domain: the `Video` entity.  `status` is a string in Go; only the
six constants and the empty string occur, so it is modelled as
`Option VideoStatus` with `none` standing for the empty string. -/
structure Video where
  id : String
  youTubeVideoID : String
  accountID : String
  title : String
  description : String
  thumbnailURL : String
  videoURL : String
  localFilePath : String
  status : Option VideoStatus
  errorMessage : String
  tikTokVideoID : String
  createdAt : Time
  updatedAt : Time
  publishedAt : Time
deriving DecidableEq, Repr

/-- internal/domain: the `Account` entity (one YouTube channel → TikTok
account job).  Nullable times (`*time.Time`, zero `time.Time`) are
`Option Time`. -/
structure Account where
  id : String
  youTubeChannelID : String
  tikTokAccountID : String
  tikTokAccessToken : String
  tikTokRefreshToken : String
  tikTokTokenExpiresAt : Option Time
  lastCheckedAt : Option Time
  lastVideoID : String
  isActive : Bool
  createdAt : Time
  updatedAt : Time
deriving DecidableEq, Repr

/-- config: the configuration fields read by the embedded code.  Integral
fields are Go `int`s, hence `Int` (the code branches on `<= 0`). -/
structure Config where
  workerPoolSize : Int
  maxConcurrentDownloads : Int
  maxConcurrentUploads : Int
  tikTokEnableWeb : Bool
  tikTokAPIKey : String
  tikTokRedirectURI : String
deriving DecidableEq, Repr

/-- The success-path position of a status; `failed` is off the success path
(`pending → downloading → downloaded → uploading → completed`). -/
def successRank : VideoStatus → Option Nat
  | .pending => some 0
  | .downloading => some 1
  | .downloaded => some 2
  | .uploading => some 3
  | .completed => some 4
  | .failed => none

/-- `statusRegressed before after` holds when both statuses are on the
success path and `after` is strictly earlier than `before`. -/
def statusRegressed (before after : VideoStatus) : Bool :=
  match successRank before, successRank after with
  | some i, some j => decide (j < i)
  | _, _ => false

/-! ## Store: sqlite `VideoRepository`

The `videos` table is modelled as a `List Video` whose `id` column is the
primary key (at most one row per id).  `Save` mirrors
`internal/repository/sqlite` `VideoRepository.Save`: assign a fresh id and
`created_at` when the id is empty, default the status to `pending` when it is
empty, stamp `updated_at`, then `INSERT ... ON CONFLICT(id) DO UPDATE SET`
every mutable column (everything except `id` and `created_at`). -/

/-- `SELECT ... FROM videos WHERE id = ?` (primary-key lookup). -/
def findVideoById (store : List Video) (id : String) : Option Video :=
  store.find? (fun r => r.id == id)

/-- `GetByYouTubeID`: the dedup lookup, `WHERE youtube_video_id = ?`. -/
def findVideoByYouTubeID (store : List Video) (youtubeID : String) : Option Video :=
  store.find? (fun r => r.youTubeVideoID == youtubeID)

/-- The `ON CONFLICT(id) DO UPDATE` upsert: replace the row with the same id,
keeping only its `created_at`; insert at the end otherwise. -/
def upsertVideoRow (v : Video) : List Video → List Video
  | [] => [v]
  | r :: rs =>
    if r.id == v.id then { v with createdAt := r.createdAt } :: rs
    else r :: upsertVideoRow v rs

namespace VideoRepository

/-- sqlite `VideoRepository.Save`.  `now` is `time.Now().UTC()`; `fresh` is
the UUID drawn when the incoming id is empty.  Returns the updated table and
the (possibly id/status/updatedAt-normalized) video value the Go code leaves
in the caller's record. -/
def Save (store : List Video) (now : Time) (fresh : String) (video : Video) :
    List Video × Video :=
  let v1 := if video.id == "" then { video with id := fresh, createdAt := now } else video
  let v2 := if v1.status.isNone then { v1 with status := some .pending } else v1
  let v3 := { v2 with updatedAt := now }
  (upsertVideoRow v3 store, v3)

end VideoRepository

/-- After an upsert, the row found under the saved id carries exactly the
saved mutable fields; only `created_at` may come from the old row. -/
theorem findVideoById_upsertVideoRow (store : List Video) (v : Video) :
    ∃ c, findVideoById (upsertVideoRow v store) v.id = some { v with createdAt := c } := by
  induction store with
  | nil =>
    refine ⟨v.createdAt, ?_⟩
    simp [findVideoById, upsertVideoRow, List.find?]
  | cons r rs ih =>
    by_cases h : r.id = v.id
    · refine ⟨r.createdAt, ?_⟩
      simp [findVideoById, upsertVideoRow, List.find?, h]
    · obtain ⟨c, hc⟩ := ih
      refine ⟨c, ?_⟩
      have hne : (r.id == v.id) = false := beq_eq_false_iff_ne.mpr h
      simp only [upsertVideoRow, hne, Bool.false_eq_true, if_false]
      simp only [findVideoById, List.find?, hne] at hc ⊢
      exact hc

/-- The row `Save` leaves in the table under the saved id. -/
theorem Save_found (store : List Video) (now : Time) (fresh : String) (video : Video) :
    ∃ c, findVideoById (VideoRepository.Save store now fresh video).1
        (VideoRepository.Save store now fresh video).2.id
      = some { (VideoRepository.Save store now fresh video).2 with createdAt := c } := by
  unfold VideoRepository.Save
  exact findVideoById_upsertVideoRow store _

/-- The status `Save` writes: the incoming one, defaulted to `pending`. -/
theorem Save_snd_status (store : List Video) (now : Time) (fresh : String) (video : Video) :
    (VideoRepository.Save store now fresh video).2.status
      = (if video.status.isNone then some .pending else video.status) := by
  unfold VideoRepository.Save
  by_cases h1 : (video.id == "") = true <;> by_cases h2 : video.status.isNone = true <;>
    simp [h1, h2]

/-- `Save` stamps `updated_at = now` on the saved value. -/
theorem Save_snd_updatedAt (store : List Video) (now : Time) (fresh : String) (video : Video) :
    (VideoRepository.Save store now fresh video).2.updatedAt = now := rfl

/-- C1 (claim as stated, checked at a concrete input): the pre-existing row. -/
def savedCompletedRow : Video :=
  { id := "v1", youTubeVideoID := "yt1", accountID := "acc1", title := "t",
    description := "d", thumbnailURL := "", videoURL := "", localFilePath := "/tmp/yt1.mp4",
    status := some .completed, errorMessage := "", tikTokVideoID := "tt1",
    createdAt := 1, updatedAt := 2, publishedAt := 0 }

/-- C1 (claim as stated, checked at a concrete input): a later upsert of the
same id carrying an earlier success-path status. -/
def regressingWrite : Video :=
  { savedCompletedRow with status := some .pending, tikTokVideoID := "" }

/-- C1 — counterexample.  `VideoRepository.Save` has no status-regression
guard: upserting id "v1" (stored as `completed`) with status `pending` leaves
the stored status `pending`, a strict regression along the success path, so
an observer reading the row twice sees `completed` then `pending`. -/
theorem C1_counterexample :
    (findVideoById [savedCompletedRow] "v1").map (fun r => r.status)
        = some (some .completed) ∧
    ((findVideoById (VideoRepository.Save [savedCompletedRow] 5 "fresh" regressingWrite).1
        "v1").map (fun r => r.status) = some (some .pending)) ∧
    statusRegressed .completed .pending = true := by
  refine ⟨?_, ?_, ?_⟩ <;> rfl

/-- C1 — amended.  On an id conflict, `Save` updates every mutable field
unconditionally: the row subsequently found under the saved id carries
exactly the incoming status (defaulted to `pending` when unset) and
`updated_at = now`, with no comparison against the previously stored status —
regressions along the success path are not prevented. -/
theorem C1_save_overwrites_status (store : List Video) (now : Time)
    (fresh : String) (video : Video) :
    ((findVideoById (VideoRepository.Save store now fresh video).1
        (VideoRepository.Save store now fresh video).2.id).map (fun r => r.status)
      = some (if video.status.isNone then some .pending else video.status)) ∧
    ((findVideoById (VideoRepository.Save store now fresh video).1
        (VideoRepository.Save store now fresh video).2.id).map (fun r => r.updatedAt)
      = some now) := by
  obtain ⟨c, hc⟩ := Save_found store now fresh video
  constructor
  · rw [hc]
    simpa using Save_snd_status store now fresh video
  · rw [hc]
    simpa using Save_snd_updatedAt store now fresh video

/-! ## Management update: usecase `AccountManager.UpdateAccountMapping`

The Go method looks the account up by id, applies the non-empty / non-nil
parameters to the record, stamps `UpdatedAt`, and hands the record to
`accountRepo.Save`.  The record transformation is embedded here; the caller
supplies the looked-up account. -/

namespace AccountManager

/-- usecase `AccountManager.UpdateAccountMapping` (record transformation after
the `GetByID` lookup found `account`). -/
def UpdateAccountMapping (account : Account)
    (youtubeChannelID tiktokAccountID tiktokAccessToken : String)
    (isActive : Option Bool) (now : Time) : Account :=
  let a1 := if youtubeChannelID ≠ "" then { account with youTubeChannelID := youtubeChannelID }
            else account
  let a2 := if tiktokAccountID ≠ "" then { a1 with tikTokAccountID := tiktokAccountID } else a1
  let a3 := if tiktokAccessToken ≠ "" then { a2 with tikTokAccessToken := tiktokAccessToken }
            else a2
  let a4 := match isActive with
    | some b => { a3 with isActive := b }
    | none => a3
  { a4 with updatedAt := now }

end AccountManager

/-- Field-by-field characterization of `UpdateAccountMapping`: each empty
string parameter leaves its field, a `none` active pointer leaves the flag,
every other stored field is untouched, and `updated_at` is stamped. -/
theorem UpdateAccountMapping_fields (account : Account)
    (y t tok : String) (act : Option Bool) (now : Time) :
    AccountManager.UpdateAccountMapping account y t tok act now
      = { account with
          youTubeChannelID := if y = "" then account.youTubeChannelID else y,
          tikTokAccountID := if t = "" then account.tikTokAccountID else t,
          tikTokAccessToken := if tok = "" then account.tikTokAccessToken else tok,
          isActive := act.getD account.isActive,
          updatedAt := now } := by
  unfold AccountManager.UpdateAccountMapping
  by_cases hy : y = "" <;> by_cases ht : t = "" <;> by_cases htok : tok = "" <;>
    cases act <;> simp [hy, ht, htok, Option.getD]

/-- C10 — confirmed.  For every call to `UpdateAccountMapping` on an existing
account, an empty-string parameter leaves the corresponding stored field
(YouTube channel id, TikTok account id, access token) unchanged and a nil
`isActive` pointer leaves the active flag unchanged — the management API
cannot clear a stored token or id back to empty; among the stored fields only
`updated_at` is unconditionally rewritten. -/
theorem C10_update_mapping_frame (account : Account)
    (y t tok : String) (act : Option Bool) (now : Time) :
    ((AccountManager.UpdateAccountMapping account y t tok act now).youTubeChannelID
        = (if y = "" then account.youTubeChannelID else y)) ∧
    ((AccountManager.UpdateAccountMapping account y t tok act now).tikTokAccountID
        = (if t = "" then account.tikTokAccountID else t)) ∧
    ((AccountManager.UpdateAccountMapping account y t tok act now).tikTokAccessToken
        = (if tok = "" then account.tikTokAccessToken else tok)) ∧
    ((AccountManager.UpdateAccountMapping account y t tok act now).isActive
        = act.getD account.isActive) ∧
    ((AccountManager.UpdateAccountMapping account y t tok act now).updatedAt = now) ∧
    ((AccountManager.UpdateAccountMapping account y t tok act now).id = account.id) ∧
    ((AccountManager.UpdateAccountMapping account y t tok act now).tikTokRefreshToken
        = account.tikTokRefreshToken) ∧
    ((AccountManager.UpdateAccountMapping account y t tok act now).tikTokTokenExpiresAt
        = account.tikTokTokenExpiresAt) ∧
    ((AccountManager.UpdateAccountMapping account y t tok act now).lastCheckedAt
        = account.lastCheckedAt) ∧
    ((AccountManager.UpdateAccountMapping account y t tok act now).lastVideoID
        = account.lastVideoID) ∧
    ((AccountManager.UpdateAccountMapping account y t tok act now).createdAt
        = account.createdAt) := by
  rw [UpdateAccountMapping_fields]
  exact ⟨rfl, rfl, rfl, rfl, rfl, rfl, rfl, rfl, rfl, rfl, rfl⟩

/-! ## Bootstrapper: cmd/main.go `bootstrapAccounts`

Per config entry, the loop looks up an existing account by TikTok account id,
then by YouTube channel id.  When found, it computes which
`UpdateAccountMapping` parameters to pass (empty string / nil means "leave
unchanged") and a `needsUpdate` flag; when absent, it creates the account via
`CreateAccountMapping`, substituting a placeholder sentinel when the entry
has no token. -/

/-- cmd/main.go: sentinel inserted when a bootstrap entry has no token. -/
def placeholderToken : String := "PLACEHOLDER_TOKEN_UPDATE_VIA_EXCHANGE_CODE_API"

/-- One entry of `cfg.BootstrapAccounts`. -/
structure BootstrapEntry where
  youTubeChannelID : String
  tikTokAccountID : String
  tikTokAccessToken : String
  isActive : Option Bool
deriving DecidableEq, Repr

/-- The parameters `bootstrapAccounts` accumulates for the update call. -/
structure BootstrapUpdateDecision where
  youtubeID : String
  tiktokID : String
  token : String
  activePtr : Option Bool
  needsUpdate : Bool
deriving DecidableEq, Repr

/-- cmd/main.go, existing-account branch of `bootstrapAccounts`: decide which
fields to update.  The token is taken from config only when the entry token
is non-empty, differs from the stored one, and the stored token is empty; the
two other token branches (stored token present without / with a refresh
token) only log and never update. -/
def bootstrapUpdateDecision (acc : BootstrapEntry) (existing : Account) :
    BootstrapUpdateDecision :=
  let d0 : BootstrapUpdateDecision :=
    { youtubeID := "", tiktokID := "", token := "", activePtr := none, needsUpdate := false }
  let d1 := if acc.youTubeChannelID ≠ "" ∧ acc.youTubeChannelID ≠ existing.youTubeChannelID
            then { d0 with youtubeID := acc.youTubeChannelID, needsUpdate := true } else d0
  let d2 := if acc.tikTokAccountID ≠ "" ∧ acc.tikTokAccountID ≠ existing.tikTokAccountID
            then { d1 with tiktokID := acc.tikTokAccountID, needsUpdate := true } else d1
  let d3 := if acc.tikTokAccessToken ≠ "" ∧ acc.tikTokAccessToken ≠ existing.tikTokAccessToken
            then (if existing.tikTokAccessToken = ""
                  then { d2 with token := acc.tikTokAccessToken, needsUpdate := true }
                  else d2)
            else d2
  match acc.isActive with
  | some b => if existing.isActive ≠ b then { d3 with activePtr := some b, needsUpdate := true }
              else d3
  | none => d3

/-- cmd/main.go, existing-account branch: the account state after the entry is
processed (`UpdateAccountMapping` is called only when `needsUpdate`). -/
def bootstrapExistingAccount (acc : BootstrapEntry) (existing : Account) (now : Time) :
    Account :=
  let d := bootstrapUpdateDecision acc existing
  if d.needsUpdate then
    AccountManager.UpdateAccountMapping existing d.youtubeID d.tiktokID d.token d.activePtr now
  else existing

/-- cmd/main.go, create branch: the token handed to `CreateAccountMapping`. -/
def bootstrapCreateToken (acc : BootstrapEntry) : String :=
  if acc.tikTokAccessToken = "" then placeholderToken else acc.tikTokAccessToken

/-- usecase `CreateAccountMapping` record construction, as invoked from the
bootstrap create branch (`IsActive := true`; the duplicate-mapping lookups
that precede it in the code are assumed clear by this branch). -/
def bootstrapCreateAccount (acc : BootstrapEntry) (now : Time) : Account :=
  { id := "", youTubeChannelID := acc.youTubeChannelID,
    tikTokAccountID := acc.tikTokAccountID,
    tikTokAccessToken := bootstrapCreateToken acc, tikTokRefreshToken := "",
    tikTokTokenExpiresAt := none, lastCheckedAt := none, lastVideoID := "",
    isActive := true, createdAt := now, updatedAt := now }

/-- The account whose stored state refutes C9: empty access token but a
refresh token obtained earlier. -/
def refreshOnlyAccount : Account :=
  { id := "a1", youTubeChannelID := "UCabc", tikTokAccountID := "ttk123",
    tikTokAccessToken := "", tikTokRefreshToken := "R0",
    tikTokTokenExpiresAt := none, lastCheckedAt := none, lastVideoID := "",
    isActive := true, createdAt := 1, updatedAt := 1 }

/-- The bootstrap entry whose config token overwrites `refreshOnlyAccount`. -/
def configTokenEntry : BootstrapEntry :=
  { youTubeChannelID := "UCabc", tikTokAccountID := "ttk123",
    tikTokAccessToken := "T0", isActive := none }

/-- C9 — counterexample.  The token-update guard checks only that the stored
access token is empty, not that no refresh token exists: for a stored account
with an empty access token and refresh token "R0", a config entry carrying
token "T0" does overwrite the stored access token — contradicting "never when
the stored account has a refresh token". -/
theorem C9_counterexample :
    refreshOnlyAccount.tikTokRefreshToken = "R0" ∧
    refreshOnlyAccount.tikTokAccessToken = "" ∧
    (bootstrapExistingAccount configTokenEntry refreshOnlyAccount 9).tikTokAccessToken
      = "T0" :=
  ⟨rfl, rfl, rfl⟩

/-- The token parameter `bootstrapAccounts` passes to the update call: the
config token exactly when it is non-empty, differs, and the stored token is
empty; the empty string (leave unchanged) otherwise. -/
theorem bootstrapUpdateDecision_token (acc : BootstrapEntry) (existing : Account) :
    (bootstrapUpdateDecision acc existing).token
      = (if (acc.tikTokAccessToken ≠ "" ∧ acc.tikTokAccessToken ≠ existing.tikTokAccessToken)
            ∧ existing.tikTokAccessToken = ""
         then acc.tikTokAccessToken else "") := by
  unfold bootstrapUpdateDecision
  by_cases h1 : acc.youTubeChannelID ≠ "" ∧ acc.youTubeChannelID ≠ existing.youTubeChannelID <;>
  by_cases h2 : acc.tikTokAccountID ≠ "" ∧ acc.tikTokAccountID ≠ existing.tikTokAccountID <;>
  by_cases h3 : acc.tikTokAccessToken ≠ "" ∧ acc.tikTokAccessToken ≠ existing.tikTokAccessToken <;>
  by_cases h4 : existing.tikTokAccessToken = "" <;>
  cases acc.isActive <;>
  simp [h1, h2, h3, h4] <;> (try split) <;> (try rfl) <;> (try simp_all)

/-- When the token-overwrite condition holds, the bootstrapper decides an
update is needed. -/
theorem bootstrapUpdateDecision_needsUpdate_token (acc : BootstrapEntry) (existing : Account)
    (h3 : acc.tikTokAccessToken ≠ "" ∧ acc.tikTokAccessToken ≠ existing.tikTokAccessToken)
    (h4 : existing.tikTokAccessToken = "") :
    (bootstrapUpdateDecision acc existing).needsUpdate = true := by
  unfold bootstrapUpdateDecision
  by_cases h1 : acc.youTubeChannelID ≠ "" ∧ acc.youTubeChannelID ≠ existing.youTubeChannelID <;>
  by_cases h2 : acc.tikTokAccountID ≠ "" ∧ acc.tikTokAccountID ≠ existing.tikTokAccountID <;>
  cases acc.isActive <;>
  simp [h1, h2, h3, h4] <;> (try split) <;> (try rfl)

/-- C9 — amended.  For every bootstrap entry matching an existing account,
the stored access token is overwritten from config exactly when the stored
one is empty (and the entry's token is non-empty) — regardless of whether a
refresh token is present; a stored non-empty access token is never
overwritten from config.  For every entry creating a new account without a
token, the placeholder sentinel is inserted so the record exists. -/
theorem C9_bootstrap_token_policy (acc : BootstrapEntry) (existing : Account) (now : Time) :
    (existing.tikTokAccessToken ≠ "" →
      (bootstrapExistingAccount acc existing now).tikTokAccessToken
        = existing.tikTokAccessToken) ∧
    (existing.tikTokAccessToken = "" → acc.tikTokAccessToken ≠ "" →
      (bootstrapExistingAccount acc existing now).tikTokAccessToken
        = acc.tikTokAccessToken) ∧
    (acc.tikTokAccessToken = "" →
      (bootstrapCreateAccount acc now).tikTokAccessToken = placeholderToken) := by
  refine ⟨?_, ?_, ?_⟩
  · intro hne
    have htok : (bootstrapUpdateDecision acc existing).token = "" := by
      rw [bootstrapUpdateDecision_token]
      simp [hne]
    simp only [bootstrapExistingAccount]
    split
    · simp [UpdateAccountMapping_fields, htok]
    · rfl
  · intro hemp hne
    have h3 : acc.tikTokAccessToken ≠ "" ∧ acc.tikTokAccessToken ≠ existing.tikTokAccessToken :=
      ⟨hne, by rw [hemp]; exact hne⟩
    have htok : (bootstrapUpdateDecision acc existing).token = acc.tikTokAccessToken := by
      rw [bootstrapUpdateDecision_token]
      simp [h3, hemp]
    have hupd := bootstrapUpdateDecision_needsUpdate_token acc existing h3 hemp
    simp only [bootstrapExistingAccount]
    simp only [hupd, if_true]
    simp [UpdateAccountMapping_fields, htok, hne]
  · intro hemp
    simp [bootstrapCreateAccount, bootstrapCreateToken, hemp]

/-- C9 — witness: the amended policy evaluated at concrete inputs.  A stored
non-empty token "KEEP" survives a differing config token; an empty stored
token is replaced by the config token; a token-less entry creates the
placeholder record. -/
theorem C9_bootstrap_token_policy_witness :
    (bootstrapExistingAccount configTokenEntry
        { refreshOnlyAccount with tikTokAccessToken := "KEEP" } 9).tikTokAccessToken
      = "KEEP" ∧
    (bootstrapExistingAccount configTokenEntry refreshOnlyAccount 9).tikTokAccessToken
      = "T0" ∧
    (bootstrapCreateAccount
        { configTokenEntry with tikTokAccessToken := "" } 9).tikTokAccessToken
      = placeholderToken :=
  ⟨(C9_bootstrap_token_policy configTokenEntry
      { refreshOnlyAccount with tikTokAccessToken := "KEEP" } 9).1 (by decide),
   (C9_bootstrap_token_policy configTokenEntry refreshOnlyAccount 9).2.1 rfl (by decide),
   (C9_bootstrap_token_policy
      { configTokenEntry with tikTokAccessToken := "" } refreshOnlyAccount 9).2.2 rfl⟩

/-! ## Sink client: tiktok `Service`

`publishVideo`'s response handling is embedded over an already-parsed
response; the raw-body preview suffix appended to the status-code error is
not reproduced.  Everything else reaching the network is an oracle. -/

/-- tiktok `TokenResponse.Data`: payload of the exchange / refresh calls. -/
structure TokenData where
  accessToken : String
  tokenType : String
  expiresIn : Int
  refreshToken : String
  scope : String
  openID : String
deriving DecidableEq, Repr

/-- tiktok `UploadRequest`. -/
structure UploadRequest where
  accessToken : String
  openID : String
  videoPath : String
  title : String
  description : String
  privacyLevel : String
deriving DecidableEq, Repr

/-- A parsed response of the publish step: HTTP status, the `error.code` /
`error.message` fields, and `data.video_id`. -/
structure TikTokResponse where
  statusCode : Nat
  errorCode : String
  errorMessage : String
  dataVideoID : String
deriving DecidableEq, Repr

/-- tiktok `Service.publishVideo`, response handling: non-200 status or a
non-empty error code fail; otherwise `data.video_id` is returned exactly as
received — there is no non-empty check on it. -/
def publishVideoResult (resp : TikTokResponse) : Except String String :=
  if resp.statusCode ≠ 200 then
    .error ("publish failed with status " ++ toString resp.statusCode)
  else if resp.errorCode ≠ "" then
    .error ("TikTok API error: " ++ resp.errorCode ++ " - " ++ resp.errorMessage)
  else
    .ok resp.dataVideoID

/-! ## `net/url` QueryEscape, as used by `promptManualAuthorization` -/

/-- Go `net/url` unreserved characters: ASCII letters, digits, `-_.~`. -/
def isUnreservedChar (c : Char) : Bool :=
  c.isAlpha || c.isDigit || c == '-' || c == '_' || c == '.' || c == '~'

/-- UTF-8 bytes of a character (as `Nat`s below 256). -/
def utf8Bytes (c : Char) : List Nat :=
  let n := c.toNat
  if n < 128 then [n]
  else if n < 2048 then [192 + n / 64, 128 + n % 64]
  else if n < 65536 then [224 + n / 4096, 128 + (n / 64) % 64, 128 + n % 64]
  else [240 + n / 262144, 128 + (n / 4096) % 64, 128 + (n / 64) % 64, 128 + n % 64]

/-- Upper-case hexadecimal digit. -/
def upperHexDigit (n : Nat) : Char :=
  "0123456789ABCDEF".toList.getD n '0'

/-- `%XX` encoding of one byte. -/
def percentEncodeByte (b : Nat) : String :=
  String.mk ['%', upperHexDigit (b / 16 % 16), upperHexDigit (b % 16)]

/-- Go `url.QueryEscape` on one character: unreserved characters pass
through, a space becomes `+`, anything else is percent-encoded bytewise. -/
def queryEscapeChar (c : Char) : String :=
  if isUnreservedChar c then String.mk [c]
  else if c == ' ' then "+"
  else String.join ((utf8Bytes c).map percentEncodeByte)

/-- Go `url.QueryEscape`. -/
def queryEscape (s : String) : String :=
  String.join (s.toList.map queryEscapeChar)

/-- `hay` contains `needle` as a contiguous substring. -/
def strContainsSub (hay needle : String) : Prop :=
  ∃ p s, hay = p ++ needle ++ s

/-- The scope list hard-coded in `promptManualAuthorization`. -/
def authorizeScopes : String := "user.info.basic,video.upload,video.publish"

/-- usecase `VideoProcessor.promptManualAuthorization`: the pre-computed
authorize URL (state is the literal "12345"); the log lines around it are
not modelled. -/
def promptManualAuthorization (cfg : Config) : String :=
  "https://www.tiktok.com/v2/auth/authorize?client_key=" ++ queryEscape cfg.tikTokAPIKey
    ++ "&scope=" ++ queryEscape authorizeScopes
    ++ "&response_type=code&redirect_uri=" ++ queryEscape cfg.tikTokRedirectURI
    ++ "&state=" ++ queryEscape "12345"

/-- The error returned when the access token is not configured (empty). -/
def reauthNotConfiguredMessage (cfg : Config) (accountID : String) : String :=
  "TikTok access token not configured for account " ++ accountID
    ++ ". Re-authorize via " ++ promptManualAuthorization cfg
    ++ " and exchange the returned code for a token"

/-! ## Processing pipeline: usecase `VideoProcessor`

Each repository write and each external call is an oracle in `ProcEnv`;
successful repository writes are recorded in a `RepoEvent` trace (the trace
is the persisted history).  The worker-pool / semaphore acquisitions and the
timeout contexts wrap these calls without changing their sequential
data flow, so they appear only in the structural model further below. -/

/-- One successful repository write, or one attempted sink upload. -/
inductive RepoEvent
  | updateStatus (id : String) (st : VideoStatus) (msg : String)
  | updateFilePath (id path : String)
  | updateTikTokID (id ttid : String)
  | saveAccount (a : Account)
  | uploadAttempt (req : UploadRequest)
deriving DecidableEq, Repr

/-- Oracles for the processing pipeline: repository operations, the YouTube
download, the TikTok calls, and the clock. -/
structure ProcEnv where
  getAccountByID : String → Except String (Option Account)
  verifyAccessToken : String → Except String Bool
  refreshAccessToken : String → Except String TokenData
  saveAccount : Account → Except String Unit
  updateStatus : String → VideoStatus → String → Except String Unit
  updateFilePath : String → String → Except String Unit
  updateTikTokID : String → String → Except String Unit
  download : String → Except String String
  uploadToTikTok : UploadRequest → Except String String
  now : Time

/-- `videoRepo.UpdateStatus`, recording the write when it succeeds. -/
def doUpdateStatus (env : ProcEnv) (id : String) (st : VideoStatus) (msg : String) :
    List RepoEvent × Except String Unit :=
  match env.updateStatus id st msg with
  | .ok _ => ([.updateStatus id st msg], .ok ())
  | .error e => ([], .error e)

/-- `videoRepo.UpdateFilePath`, recording the write when it succeeds. -/
def doUpdateFilePath (env : ProcEnv) (id path : String) :
    List RepoEvent × Except String Unit :=
  match env.updateFilePath id path with
  | .ok _ => ([.updateFilePath id path], .ok ())
  | .error e => ([], .error e)

/-- `videoRepo.UpdateTikTokID`, recording the write when it succeeds. -/
def doUpdateTikTokID (env : ProcEnv) (id ttid : String) :
    List RepoEvent × Except String Unit :=
  match env.updateTikTokID id ttid with
  | .ok _ => ([.updateTikTokID id ttid], .ok ())
  | .error e => ([], .error e)

/-- `accountRepo.Save`, recording the write when it succeeds. -/
def doSaveAccount (env : ProcEnv) (a : Account) :
    List RepoEvent × Except String Unit :=
  match env.saveAccount a with
  | .ok _ => ([.saveAccount a], .ok ())
  | .error e => ([], .error e)

/-- The token state after a successful refresh (usecase `uploadVideo`,
lines updating the account record): the access token is replaced, the
refresh token only when the response carries a non-empty one, and the expiry
becomes `now + expires_in` only when `expires_in > 0`. -/
def refreshedAccount (account : Account) (td : TokenData) (now : Time) : Account :=
  let a1 := { account with tikTokAccessToken := td.accessToken }
  let a2 := if td.refreshToken ≠ "" then { a1 with tikTokRefreshToken := td.refreshToken }
            else a1
  if td.expiresIn > 0 then { a2 with tikTokTokenExpiresAt := some (now + td.expiresIn) }
  else a2

/-- usecase `VideoProcessor.uploadVideo`, credential section (the
`if !p.config.TikTokEnableWeb` block): verify, refresh, persist.  Returns
the account whose token the upload will use. -/
def validateCredentials (cfg : Config) (env : ProcEnv) (account : Account) :
    List RepoEvent × Except String Account :=
  if cfg.tikTokEnableWeb then ([], .ok account)
  else if account.tikTokAccessToken = "" then
    ([], .error (reauthNotConfiguredMessage cfg account.id))
  else
    match env.verifyAccessToken account.tikTokAccessToken with
    | .error e => ([], .error ("failed to verify access token: " ++ e))
    | .ok true => ([], .ok account)
    | .ok false =>
      if account.tikTokRefreshToken ≠ "" then
        match env.refreshAccessToken account.tikTokRefreshToken with
        | .error e =>
          ([], .error ("TikTok access token is invalid and refresh failed for account "
            ++ account.id ++ ": " ++ e ++ ". Please update the token"))
        | .ok td =>
          match doSaveAccount env (refreshedAccount account td env.now) with
          | (t, .error e) => (t, .error ("failed to save refreshed token: " ++ e))
          | (t, .ok _) => (t, .ok (refreshedAccount account td env.now))
      else
        ([], .error ("TikTok access token is invalid or expired for account " ++ account.id
          ++ " and no refresh token available. Re-authorize via "
          ++ promptManualAuthorization cfg
          ++ " and exchange the returned code for a new token"))

/-- The `tiktok.UploadRequest` built in `uploadVideo`: the (possibly
refreshed) account's token and open id, the video's local file and metadata,
privacy hard-coded to PUBLIC_TO_EVERYONE. -/
def uploadRequestFor (account : Account) (video : Video) : UploadRequest :=
  { accessToken := account.tikTokAccessToken, openID := account.tikTokAccountID,
    videoPath := video.localFilePath, title := video.title,
    description := video.description, privacyLevel := "PUBLIC_TO_EVERYONE" }

/-- usecase `VideoProcessor.uploadVideo`: account lookup and validation,
credential check, `uploading` transition, sink upload, sink-id persistence. -/
def uploadVideo (cfg : Config) (env : ProcEnv) (video : Video) :
    List RepoEvent × Except String Unit :=
  match env.getAccountByID video.accountID with
  | .error e => ([], .error ("failed to get account mapping: " ++ e))
  | .ok none =>
    ([], .error ("account mapping not found for video " ++ video.id
      ++ " (account ID: " ++ video.accountID ++ ")"))
  | .ok (some account) =>
    if account.tikTokAccountID = "" then
      ([], .error ("TikTok account ID not configured for account " ++ account.id))
    else
      match validateCredentials cfg env account with
      | (t1, .error e) => (t1, .error e)
      | (t1, .ok account) =>
        match doUpdateStatus env video.id .uploading "" with
        | (t2, .error e) => (t1 ++ t2, .error e)
        | (t2, .ok _) =>
          match env.uploadToTikTok (uploadRequestFor account video) with
          | .error e => (t1 ++ t2 ++ [.uploadAttempt (uploadRequestFor account video)],
              .error ("upload failed: " ++ e))
          | .ok ttid =>
            match doUpdateTikTokID env video.id ttid with
            | (t3, .error e) =>
              (t1 ++ t2 ++ [.uploadAttempt (uploadRequestFor account video)] ++ t3, .error e)
            | (t3, .ok _) =>
              (t1 ++ t2 ++ [.uploadAttempt (uploadRequestFor account video)] ++ t3, .ok ())

/-- usecase `VideoProcessor.downloadVideo`: `downloading` transition,
download, file-path persistence, `downloaded` transition.  Returns the video
with `LocalFilePath` set, as the Go code mutates it. -/
def downloadVideo (env : ProcEnv) (video : Video) :
    List RepoEvent × Except String Video :=
  match doUpdateStatus env video.id .downloading "" with
  | (t1, .error e) => (t1, .error e)
  | (t1, .ok _) =>
    match env.download video.youTubeVideoID with
    | .error e => (t1, .error ("download failed: " ++ e))
    | .ok path =>
      match doUpdateFilePath env video.id path with
      | (t2, .error e) => (t1 ++ t2, .error e)
      | (t2, .ok _) =>
        match doUpdateStatus env video.id .downloaded "" with
        | (t3, .error e) => (t1 ++ t2 ++ t3, .error e)
        | (t3, .ok _) => (t1 ++ t2 ++ t3, .ok { video with localFilePath := path })

/-- usecase `VideoProcessor.processVideo`: download, upload, `completed`; a
failure in either stage marks the video `failed` with the error message (the
failure-path write's own error is discarded, as in the Go code). -/
def processVideo (cfg : Config) (env : ProcEnv) (video : Video) :
    List RepoEvent × Except String Unit :=
  match downloadVideo env video with
  | (t1, .error e) => (t1 ++ (doUpdateStatus env video.id .failed e).1, .error e)
  | (t1, .ok video2) =>
    match uploadVideo cfg env video2 with
    | (t2, .error e) => (t1 ++ t2 ++ (doUpdateStatus env video.id .failed e).1, .error e)
    | (t2, .ok _) =>
      match doUpdateStatus env video.id .completed "" with
      | (t3, r) => (t1 ++ t2 ++ t3, r)

/-- The persisted status history of one video id, in write order. -/
def statusWrites (tr : List RepoEvent) (id : String) : List VideoStatus :=
  tr.filterMap (fun ev =>
    match ev with
    | .updateStatus i st _ => if i = id then some st else none
    | _ => none)

/-- A successful `doUpdateStatus` records exactly its own write. -/
theorem doUpdateStatus_ok (env : ProcEnv) (i : String) (st : VideoStatus) (m : String)
    (t : List RepoEvent) (u : Unit) (h : doUpdateStatus env i st m = (t, .ok u)) :
    t = [.updateStatus i st m] := by
  unfold doUpdateStatus at h
  split at h <;> simp_all

/-- A successful `doUpdateFilePath` records exactly its own write. -/
theorem doUpdateFilePath_ok (env : ProcEnv) (i p : String)
    (t : List RepoEvent) (u : Unit) (h : doUpdateFilePath env i p = (t, .ok u)) :
    t = [.updateFilePath i p] := by
  unfold doUpdateFilePath at h
  split at h <;> simp_all

/-- A successful `doUpdateTikTokID` records exactly its own write. -/
theorem doUpdateTikTokID_ok (env : ProcEnv) (i d : String)
    (t : List RepoEvent) (u : Unit) (h : doUpdateTikTokID env i d = (t, .ok u)) :
    t = [.updateTikTokID i d] := by
  unfold doUpdateTikTokID at h
  split at h <;> simp_all

/-- A successful `doSaveAccount` records exactly its own write. -/
theorem doSaveAccount_ok (env : ProcEnv) (a : Account)
    (t : List RepoEvent) (u : Unit) (h : doSaveAccount env a = (t, .ok u)) :
    t = [.saveAccount a] := by
  unfold doSaveAccount at h
  split at h <;> simp_all

/-- Inversion of a successful download stage: the trace is exactly the
`downloading` write, the file-path write, and the `downloaded` write, and the
returned video is the input with `LocalFilePath` set. -/
theorem downloadVideo_ok (env : ProcEnv) (video : Video) (t : List RepoEvent) (v2 : Video)
    (h : downloadVideo env video = (t, .ok v2)) :
    ∃ path, t = [.updateStatus video.id .downloading "", .updateFilePath video.id path,
        .updateStatus video.id .downloaded ""]
      ∧ v2 = { video with localFilePath := path } := by
  unfold downloadVideo at h
  split at h
  next t1 e heq1 => simp at h
  next t1 u1 heq1 =>
    split at h
    next e heq2 => simp at h
    next path heq2 =>
      split at h
      next t2 e heq3 => simp at h
      next t2 u2 heq3 =>
        split at h
        next t3 e heq4 => simp at h
        next t3 u3 heq4 =>
          rw [doUpdateStatus_ok env _ _ _ _ _ heq1, doUpdateFilePath_ok env _ _ _ _ heq3,
            doUpdateStatus_ok env _ _ _ _ _ heq4] at h
          injection h with ht hv
          injection hv with hv2
          refine ⟨path, ?_, hv2.symm⟩
          rw [← ht]
          rfl

/-- A failed `doSaveAccount` records nothing. -/
theorem doSaveAccount_error (env : ProcEnv) (a : Account)
    (t : List RepoEvent) (e : String) (h : doSaveAccount env a = (t, .error e)) :
    t = [] := by
  unfold doSaveAccount at h
  split at h <;> simp_all

/-- The refreshed account keeps the account identity fields. -/
theorem refreshedAccount_ids (a : Account) (td : TokenData) (now : Time) :
    (refreshedAccount a td now).id = a.id
      ∧ (refreshedAccount a td now).tikTokAccountID = a.tikTokAccountID := by
  unfold refreshedAccount
  by_cases h1 : td.refreshToken ≠ "" <;> by_cases h2 : td.expiresIn > 0 <;> simp [h1, h2]

/-- The refreshed account carries the new access token. -/
theorem refreshedAccount_accessToken (a : Account) (td : TokenData) (now : Time) :
    (refreshedAccount a td now).tikTokAccessToken = td.accessToken := by
  unfold refreshedAccount
  by_cases h1 : td.refreshToken ≠ "" <;> by_cases h2 : td.expiresIn > 0 <;> simp [h1, h2]

/-- The refreshed account replaces the refresh token only when the response
carries a non-empty one. -/
theorem refreshedAccount_refreshToken (a : Account) (td : TokenData) (now : Time) :
    (refreshedAccount a td now).tikTokRefreshToken
      = (if td.refreshToken = "" then a.tikTokRefreshToken else td.refreshToken) := by
  unfold refreshedAccount
  by_cases h1 : td.refreshToken = "" <;> by_cases h2 : td.expiresIn > 0 <;> simp [h1, h2]

/-- The refreshed account's expiry is `now + expires_in` iff `expires_in > 0`. -/
theorem refreshedAccount_expiresAt (a : Account) (td : TokenData) (now : Time) :
    (refreshedAccount a td now).tikTokTokenExpiresAt
      = (if td.expiresIn > 0 then some (now + td.expiresIn) else a.tikTokTokenExpiresAt) := by
  unfold refreshedAccount
  by_cases h1 : td.refreshToken ≠ "" <;> by_cases h2 : td.expiresIn > 0 <;> simp [h1, h2]

/-- The credential section records at most the refreshed-account save; it
never writes a video status. -/
theorem validateCredentials_trace (cfg : Config) (env : ProcEnv) (account : Account)
    (t : List RepoEvent) (r : Except String Account)
    (h : validateCredentials cfg env account = (t, r)) :
    t = [] ∨ ∃ a, t = [RepoEvent.saveAccount a] := by
  unfold validateCredentials at h
  split at h
  · injection h with ht hv
    exact Or.inl ht.symm
  · split at h
    · injection h with ht hv
      exact Or.inl ht.symm
    · split at h
      next e heq => injection h with ht hv; exact Or.inl ht.symm
      next heq => injection h with ht hv; exact Or.inl ht.symm
      next heq =>
        split at h
        · split at h
          next e heq2 => injection h with ht hv; exact Or.inl ht.symm
          next td heq2 =>
            split at h
            next tv e heq3 =>
              injection h with ht hv
              rw [← ht]
              exact Or.inl (doSaveAccount_error env _ _ _ heq3)
            next tv u heq3 =>
              injection h with ht hv
              rw [← ht]
              exact Or.inr ⟨_, doSaveAccount_ok env _ _ _ heq3⟩
        · injection h with ht hv
          exact Or.inl ht.symm

/-- Inversion of a successful `uploadVideo`: credential events, the
`uploading` write, the upload attempt, and the sink-id write, with the sink
id exactly what the sink oracle returned. -/
theorem uploadVideo_ok (cfg : Config) (env : ProcEnv) (video : Video) (t : List RepoEvent)
    (h : uploadVideo cfg env video = (t, .ok ())) :
    ∃ t1 req ttid,
      t = t1 ++ [RepoEvent.updateStatus video.id .uploading "",
        RepoEvent.uploadAttempt req, RepoEvent.updateTikTokID video.id ttid]
      ∧ env.uploadToTikTok req = .ok ttid
      ∧ (t1 = [] ∨ ∃ a, t1 = [RepoEvent.saveAccount a]) := by
  unfold uploadVideo at h
  split at h
  next e heq0 => simp at h
  next heq0 => simp at h
  next account heq0 =>
    split at h
    · simp at h
    · split at h
      next t1 e heqv => simp at h
      next t1 account2 heqv =>
        split at h
        next t2 e hequ => simp at h
        next t2 u hequ =>
          split at h
          next e hequp => simp at h
          next ttid hequp =>
            split at h
            next t3 e heqt => simp at h
            next t3 u3 heqt =>
              injection h with ht hv
              rw [doUpdateStatus_ok env _ _ _ _ _ hequ, doUpdateTikTokID_ok env _ _ _ _ heqt] at ht
              refine ⟨t1, _, ttid, ?_, hequp, validateCredentials_trace cfg env account t1 _ heqv⟩
              rw [← ht]
              simp

/-- C2 — confirmed.  When the access token fails verification and a refresh
token is present and the refresh succeeds, the credential check saves the
refreshed account to the Store — new access token, expiry `now + expires_in`
when `expires_in > 0`, refresh token replaced only when the response carries
a non-empty one — and the publish proceeds: the upload is attempted with the
new access token. -/
theorem C2_refresh_success_persists_and_proceeds (cfg : Config) (env : ProcEnv)
    (video : Video) (acct : Account) (td : TokenData)
    (hweb : cfg.tikTokEnableWeb = false)
    (hacct : env.getAccountByID video.accountID = .ok (some acct))
    (hopen : acct.tikTokAccountID ≠ "")
    (htok : acct.tikTokAccessToken ≠ "")
    (hverify : env.verifyAccessToken acct.tikTokAccessToken = .ok false)
    (hrt : acct.tikTokRefreshToken ≠ "")
    (hrefresh : env.refreshAccessToken acct.tikTokRefreshToken = .ok td)
    (hsave : env.saveAccount (refreshedAccount acct td env.now) = .ok ())
    (hupd : env.updateStatus video.id .uploading "" = .ok ()) :
    ((uploadVideo cfg env video).1.take 3
      = [RepoEvent.saveAccount (refreshedAccount acct td env.now),
         RepoEvent.updateStatus video.id .uploading "",
         RepoEvent.uploadAttempt (uploadRequestFor (refreshedAccount acct td env.now) video)])
    ∧ (uploadRequestFor (refreshedAccount acct td env.now) video).accessToken = td.accessToken
    ∧ (refreshedAccount acct td env.now).tikTokAccessToken = td.accessToken
    ∧ (refreshedAccount acct td env.now).tikTokRefreshToken
        = (if td.refreshToken = "" then acct.tikTokRefreshToken else td.refreshToken)
    ∧ (refreshedAccount acct td env.now).tikTokTokenExpiresAt
        = (if td.expiresIn > 0 then some (env.now + td.expiresIn)
           else acct.tikTokTokenExpiresAt) := by
  have hvc : validateCredentials cfg env acct
      = ([RepoEvent.saveAccount (refreshedAccount acct td env.now)],
         .ok (refreshedAccount acct td env.now)) := by
    unfold validateCredentials doSaveAccount
    simp [hweb, htok, hverify, hrt, hrefresh, hsave]
  refine ⟨?_, by simp [uploadRequestFor, refreshedAccount_accessToken],
    refreshedAccount_accessToken acct td env.now,
    refreshedAccount_refreshToken acct td env.now, refreshedAccount_expiresAt acct td env.now⟩
  unfold uploadVideo doUpdateStatus
  rw [hacct]
  simp only [hopen, if_false, if_neg, not_false_iff, hvc, hupd]
  cases hup : env.uploadToTikTok (uploadRequestFor (refreshedAccount acct td env.now) video) with
  | error e => simp [hup]
  | ok ttid =>
    unfold doUpdateTikTokID
    cases ht : env.updateTikTokID video.id ttid <;> simp [hup, ht]

/-! ### Concrete fixtures for the pipeline claims -/

/-- A configuration with the API path enabled (web upload off). -/
def cfgApi : Config :=
  { workerPoolSize := 4, maxConcurrentDownloads := 2, maxConcurrentUploads := 3,
    tikTokEnableWeb := false, tikTokAPIKey := "key123", tikTokRedirectURI := "cb" }

/-- A pending video row as discovery persists it. -/
def sampleVideo : Video :=
  { id := "vid1", youTubeVideoID := "yt1", accountID := "acc1", title := "T",
    description := "D", thumbnailURL := "", videoURL := "", localFilePath := "",
    status := some .pending, errorMessage := "", tikTokVideoID := "",
    createdAt := 0, updatedAt := 0, publishedAt := 0 }

/-- An account whose access token "T0" fails verification but has refresh
token "R0". -/
def refreshAccount0 : Account :=
  { id := "acc1", youTubeChannelID := "UC1", tikTokAccountID := "open1",
    tikTokAccessToken := "T0", tikTokRefreshToken := "R0",
    tikTokTokenExpiresAt := none, lastCheckedAt := none, lastVideoID := "",
    isActive := true, createdAt := 0, updatedAt := 0 }

/-- The refresh response: new tokens, 7200-second expiry. -/
def tokenData1 : TokenData :=
  { accessToken := "T1", tokenType := "Bearer", expiresIn := 7200,
    refreshToken := "R1", scope := "", openID := "open1" }

/-- Environment for the refresh scenario: verification fails, refresh
succeeds, every store write succeeds. -/
def refreshEnv : ProcEnv :=
  { getAccountByID := fun _ => .ok (some refreshAccount0),
    verifyAccessToken := fun _ => .ok false,
    refreshAccessToken := fun _ => .ok tokenData1,
    saveAccount := fun _ => .ok (),
    updateStatus := fun _ _ _ => .ok (),
    updateFilePath := fun _ _ => .ok (),
    updateTikTokID := fun _ _ => .ok (),
    download := fun _ => .ok "/tmp/yt1.mp4",
    uploadToTikTok := fun _ => .ok "tt42",
    now := 1000 }

/-- C2 — witness: the refresh scenario of the spec (`verify("T0")` false,
`refresh("R0")` yields T1/R1/7200) evaluated concretely: the refreshed
account is saved, the upload proceeds with "T1", and the stored expiry is
`1000 + 7200`. -/
theorem C2_refresh_success_witness :
    ((uploadVideo cfgApi refreshEnv sampleVideo).1.take 3
      = [RepoEvent.saveAccount (refreshedAccount refreshAccount0 tokenData1 1000),
         RepoEvent.updateStatus sampleVideo.id .uploading "",
         RepoEvent.uploadAttempt
           (uploadRequestFor (refreshedAccount refreshAccount0 tokenData1 1000) sampleVideo)])
    ∧ (uploadRequestFor (refreshedAccount refreshAccount0 tokenData1 1000)
        sampleVideo).accessToken = "T1"
    ∧ (refreshedAccount refreshAccount0 tokenData1 1000).tikTokAccessToken = "T1"
    ∧ (refreshedAccount refreshAccount0 tokenData1 1000).tikTokRefreshToken = "R1"
    ∧ (refreshedAccount refreshAccount0 tokenData1 1000).tikTokTokenExpiresAt = some 8200 := by
  have h := C2_refresh_success_persists_and_proceeds cfgApi refreshEnv sampleVideo
    refreshAccount0 tokenData1 rfl rfl (by decide) (by decide) rfl (by decide) rfl rfl rfl
  exact ⟨h.1, h.2.1, h.2.2.1, by simpa using h.2.2.2.1, by simpa using h.2.2.2.2⟩

/-- C8 — amended.  Only an *empty* access token is treated as unconfigured:
the publish attempt then returns the reauth error whose message carries the
pre-computed authorize URL — containing the query-escaped client key and
redirect URI — without any store write or upload attempt (tokens unchanged),
and the item is marked `failed` with that message. -/
theorem C8_empty_token_reauth (cfg : Config) (env : ProcEnv) (video : Video) (acct : Account)
    (hweb : cfg.tikTokEnableWeb = false)
    (hacct : env.getAccountByID video.accountID = .ok (some acct))
    (hopen : acct.tikTokAccountID ≠ "")
    (hempty : acct.tikTokAccessToken = "") :
    uploadVideo cfg env video = ([], .error (reauthNotConfiguredMessage cfg acct.id))
    ∧ strContainsSub (reauthNotConfiguredMessage cfg acct.id) (queryEscape cfg.tikTokAPIKey)
    ∧ strContainsSub (reauthNotConfiguredMessage cfg acct.id)
        (queryEscape cfg.tikTokRedirectURI)
    ∧ (∀ t1 v2, downloadVideo env video = (t1, .ok v2) →
        processVideo cfg env video
          = (t1 ++ (doUpdateStatus env video.id .failed
                (reauthNotConfiguredMessage cfg acct.id)).1,
             .error (reauthNotConfiguredMessage cfg acct.id))
          ∧ (∀ a, RepoEvent.saveAccount a ∉ (processVideo cfg env video).1)
          ∧ (∀ r, RepoEvent.uploadAttempt r ∉ (processVideo cfg env video).1)) := by
  have hup : ∀ v2 : Video, v2.accountID = video.accountID →
      uploadVideo cfg env v2 = ([], .error (reauthNotConfiguredMessage cfg acct.id)) := by
    intro v2 hv2
    unfold uploadVideo validateCredentials
    rw [hv2, hacct]
    simp [hopen, hweb, hempty]
  refine ⟨hup video rfl, ?_, ?_, ?_⟩
  · exact ⟨"TikTok access token not configured for account " ++ acct.id
        ++ ". Re-authorize via "
        ++ "https://www.tiktok.com/v2/auth/authorize?client_key=",
      "&scope=" ++ queryEscape authorizeScopes
        ++ "&response_type=code&redirect_uri=" ++ queryEscape cfg.tikTokRedirectURI
        ++ "&state=" ++ queryEscape "12345"
        ++ " and exchange the returned code for a token",
      by simp only [reauthNotConfiguredMessage, promptManualAuthorization, String.append_assoc]⟩
  · exact ⟨"TikTok access token not configured for account " ++ acct.id
        ++ ". Re-authorize via "
        ++ "https://www.tiktok.com/v2/auth/authorize?client_key="
        ++ queryEscape cfg.tikTokAPIKey ++ "&scope=" ++ queryEscape authorizeScopes
        ++ "&response_type=code&redirect_uri=",
      "&state=" ++ queryEscape "12345"
        ++ " and exchange the returned code for a token",
      by simp only [reauthNotConfiguredMessage, promptManualAuthorization, String.append_assoc]⟩
  · intro t1 v2 hdl
    obtain ⟨path, ht1, hv2⟩ := downloadVideo_ok env video t1 v2 hdl
    have hup2 : uploadVideo cfg env v2
        = ([], .error (reauthNotConfiguredMessage cfg acct.id)) := by
      refine hup v2 ?_
      rw [hv2]
    have hproc : processVideo cfg env video
        = (t1 ++ (doUpdateStatus env video.id .failed
              (reauthNotConfiguredMessage cfg acct.id)).1,
           .error (reauthNotConfiguredMessage cfg acct.id)) := by
      unfold processVideo
      simp only [hdl, hup2]
      simp
    refine ⟨hproc, ?_, ?_⟩ <;> intro x <;> rw [hproc] <;>
      unfold doUpdateStatus <;>
      cases hf : env.updateStatus video.id .failed (reauthNotConfiguredMessage cfg acct.id) <;>
      simp [ht1, hf]

/-- An account holding the bootstrap placeholder sentinel as its token. -/
def sentinelAccount : Account :=
  { id := "acc1", youTubeChannelID := "UC1", tikTokAccountID := "open1",
    tikTokAccessToken := placeholderToken, tikTokRefreshToken := "",
    tikTokTokenExpiresAt := none, lastCheckedAt := none, lastVideoID := "",
    isActive := true, createdAt := 0, updatedAt := 0 }

/-- Environment where the sink accepts the presented token (verification
returns true) and the publish response carries video id "tt9". -/
def sentinelEnv : ProcEnv :=
  { getAccountByID := fun _ => .ok (some sentinelAccount),
    verifyAccessToken := fun _ => .ok true,
    refreshAccessToken := fun _ => .error "unavailable",
    saveAccount := fun _ => .ok (),
    updateStatus := fun _ _ _ => .ok (),
    updateFilePath := fun _ _ => .ok (),
    updateTikTokID := fun _ _ => .ok (),
    download := fun _ => .ok "/tmp/yt1.mp4",
    uploadToTikTok := fun _ => publishVideoResult
      { statusCode := 200, errorCode := "", errorMessage := "", dataVideoID := "tt9" },
    now := 0 }

/-- C8 — counterexample.  The placeholder sentinel is not special-cased: a
job whose token *is* the sentinel goes through normal verification, and when
the verify call reports the token valid the upload is attempted with the
sentinel — no reauth error is emitted, contradicting the claim's
"empty or equal to the placeholder sentinel … without attempting an
upload". -/
theorem C8_counterexample :
    sentinelAccount.tikTokAccessToken = placeholderToken
    ∧ cfgApi.tikTokEnableWeb = false
    ∧ (uploadVideo cfgApi sentinelEnv sampleVideo).2 = .ok ()
    ∧ RepoEvent.uploadAttempt (uploadRequestFor sentinelAccount sampleVideo)
        ∈ (uploadVideo cfgApi sentinelEnv sampleVideo).1 := by
  refine ⟨rfl, rfl, by rfl, by decide⟩

/-- The empty-token account of the reauth scenario. -/
def emptyTokenAccount : Account :=
  { sentinelAccount with tikTokAccessToken := "" }

/-- Environment returning the empty-token account. -/
def emptyTokenEnv : ProcEnv :=
  { sentinelEnv with getAccountByID := fun _ => .ok (some emptyTokenAccount) }

/-- C8 — witness: a job whose stored token is empty, evaluated concretely:
the upload attempt returns exactly the not-configured reauth error. -/
theorem C8_empty_token_reauth_witness :
    uploadVideo cfgApi emptyTokenEnv sampleVideo
      = ([], .error (reauthNotConfiguredMessage cfgApi emptyTokenAccount.id)) :=
  (C8_empty_token_reauth cfgApi emptyTokenEnv sampleVideo emptyTokenAccount
    rfl rfl (by decide) rfl).1

/-- C5 — amended.  Every execution in which `processVideo` completes (the
final `completed` write succeeded) has persisted exactly the history
`downloading → downloaded → uploading → completed`, in that order — in
particular `downloaded` before `uploading` before `completed` — and has
written a sink video id which is exactly what the sink's publish call
returned; that id is non-empty only when the sink returned a non-empty
`data.video_id` (the code performs no non-empty check). -/
theorem C5_completed_history (cfg : Config) (env : ProcEnv) (video : Video)
    (h : (processVideo cfg env video).2 = .ok ()) :
    statusWrites (processVideo cfg env video).1 video.id
      = [.downloading, .downloaded, .uploading, .completed]
    ∧ ∃ ttid, RepoEvent.updateTikTokID video.id ttid ∈ (processVideo cfg env video).1
        ∧ ∃ req, env.uploadToTikTok req = .ok ttid := by
  rcases hP : processVideo cfg env video with ⟨T, R⟩
  rw [hP] at h
  dsimp only at h ⊢
  unfold processVideo at hP
  split at hP
  next t1 e heqd =>
    injection hP with hT hR
    rw [← hR] at h
    simp at h
  next t1 v2 heqd =>
    split at hP
    next t2 e hequ =>
      injection hP with hT hR
      rw [← hR] at h
      simp at h
    next t2 u hequ =>
      rcases hc : doUpdateStatus env video.id .completed "" with ⟨t3, r3⟩
      rw [hc] at hP
      injection hP with hT hR
      rw [← hR] at h
      rw [h] at hc
      have ht3 : t3 = [RepoEvent.updateStatus video.id .completed ""] :=
        doUpdateStatus_ok env _ _ _ _ _ hc
      obtain ⟨path, ht1, hv2⟩ := downloadVideo_ok env video t1 v2 heqd
      cases u
      obtain ⟨tc, req, ttid, ht2, hupo, hcred⟩ := uploadVideo_ok cfg env v2 t2 hequ
      have hid : v2.id = video.id := by rw [hv2]
      constructor
      · rw [← hT, ht1, ht2, ht3, hid]
        rcases hcred with hnil | ⟨a, ha⟩
        · simp [hnil, statusWrites, List.filterMap_append]
        · simp [ha, statusWrites, List.filterMap_append]
      · refine ⟨ttid, ?_, ⟨req, hupo⟩⟩
        rw [← hT, ht2, hid]
        simp

/-- Environment where the sink's publish response is HTTP 200 with an empty
`data.video_id`; everything else succeeds. -/
def emptySinkEnv : ProcEnv :=
  { sentinelEnv with
    getAccountByID := fun _ => .ok (some refreshAccount0),
    verifyAccessToken := fun _ => .ok true,
    uploadToTikTok := fun _ => publishVideoResult
      { statusCode := 200, errorCode := "", errorMessage := "", dataVideoID := "" } }

/-- C5 — counterexample.  The publish step returns `data.video_id` without a
non-empty check: with a 200 / no-error-code / empty-video-id response the
item still reaches `completed`, and its persisted sink item id is the empty
string — refuting "its sink item id (tiktok_video_id) is non-empty".  (The
status history conjunct of the claim does hold, as the last conjunct
shows.) -/
theorem C5_counterexample :
    publishVideoResult
        { statusCode := 200, errorCode := "", errorMessage := "", dataVideoID := "" }
      = .ok ""
    ∧ (processVideo cfgApi emptySinkEnv sampleVideo).2 = .ok ()
    ∧ RepoEvent.updateTikTokID sampleVideo.id ""
        ∈ (processVideo cfgApi emptySinkEnv sampleVideo).1
    ∧ statusWrites (processVideo cfgApi emptySinkEnv sampleVideo).1 sampleVideo.id
        = [.downloading, .downloaded, .uploading, .completed] := by
  refine ⟨rfl, by rfl, by decide, by decide⟩

/-- C5 — witness: a fully successful run evaluated concretely: the history
is exactly the success path and the persisted sink id is the one the sink
returned ("tt9"). -/
theorem C5_completed_history_witness :
    statusWrites (processVideo cfgApi sentinelEnv sampleVideo).1 sampleVideo.id
      = [.downloading, .downloaded, .uploading, .completed]
    ∧ ∃ ttid, RepoEvent.updateTikTokID sampleVideo.id ttid
          ∈ (processVideo cfgApi sentinelEnv sampleVideo).1
        ∧ ∃ req, sentinelEnv.uploadToTikTok req = .ok ttid :=
  C5_completed_history cfgApi sentinelEnv sampleVideo (by rfl)

/-! ## Batch drain: usecase `VideoProcessor.ProcessPendingVideos`

The loop reads pending videos with a fixed batch size and processes each
batch (concurrently in Go; the per-video outcomes and the collected error
list are what is observable here).  The loop is unbounded in Go, so the
embedding takes a fuel bound and reports `outOfFuel` when it is exhausted. -/

/-- The batch size: `MaxConcurrentDownloads + MaxConcurrentUploads`, falling
back to `WorkerPoolSize` and then to 1 when non-positive. -/
def drainBatchSize (cfg : Config) : Int :=
  let b := cfg.maxConcurrentDownloads + cfg.maxConcurrentUploads
  if b ≤ 0 then (if cfg.workerPoolSize ≤ 0 then 1 else cfg.workerPoolSize) else b

/-- Oracles for the drain loop, indexed by iteration: context cancellation,
the pending query (receives the limit it was called with), and the per-video
processing outcome. -/
structure DrainEnv where
  ctxErr : Nat → Option String
  getPendingVideos : Nat → Int → Except String (List Video)
  processVideo : Nat → Video → Except String Unit

/-- One iteration whose pending query succeeded. -/
structure DrainStep where
  iter : Nat
  limit : Int
  batch : List Video
  errs : List String
deriving DecidableEq, Repr

/-- How the drain loop ended. -/
inductive DrainResult
  | emptyDone
  | cancelled (e : String)
  | storageError (e : String)
  | processingErrors (es : List String)
  | outOfFuel
deriving DecidableEq, Repr

/-- The per-video error collected by the drain loop: `processVideo`'s error
wrapped with the video id, or nothing on success. -/
def processErrMsg (env : DrainEnv) (k : Nat) (v : Video) : Option String :=
  match env.processVideo k v with
  | .error e => some ("failed to process video " ++ v.id ++ ": " ++ e)
  | .ok _ => none

/-- The loop of `ProcessPendingVideos`: check the context, read one batch
with the fixed limit, stop on an empty batch, process the batch collecting
per-video errors, stop when any occurred, else continue. -/
def drainLoop (cfg : Config) (env : DrainEnv) : Nat → Nat → List DrainStep × DrainResult
  | 0, _ => ([], .outOfFuel)
  | fuel + 1, k =>
    match env.ctxErr k with
    | some e => ([], .cancelled e)
    | none =>
      match env.getPendingVideos k (drainBatchSize cfg) with
      | .error e => ([], .storageError ("failed to get pending videos: " ++ e))
      | .ok videos =>
        if videos = [] then
          ([{ iter := k, limit := drainBatchSize cfg, batch := videos, errs := [] }],
           .emptyDone)
        else
          let errs := videos.filterMap (processErrMsg env k)
          if errs = [] then
            let rest := drainLoop cfg env fuel (k + 1)
            ({ iter := k, limit := drainBatchSize cfg, batch := videos, errs := errs }
                :: rest.1,
             rest.2)
          else
            ([{ iter := k, limit := drainBatchSize cfg, batch := videos, errs := errs }],
             .processingErrors errs)

namespace VideoProcessor

/-- usecase `VideoProcessor.ProcessPendingVideos`. -/
def ProcessPendingVideos (cfg : Config) (env : DrainEnv) (fuel : Nat) :
    List DrainStep × DrainResult :=
  drainLoop cfg env fuel 0

end VideoProcessor

/-- A cons to a non-empty list keeps its last element. -/
theorem getLast?_cons_some {α : Type} (a x : α) (l : List α)
    (h : l.getLast? = some x) : (a :: l).getLast? = some x := by
  cases l with
  | nil => simp at h
  | cons b bs =>
    rw [List.getLast?_cons_cons]
    exact h

/-- Characterization of one `drainLoop` run starting at iteration `k`. -/
theorem drainLoop_spec (cfg : Config) (env : DrainEnv) (fuel : Nat) : ∀ k : Nat,
    (∀ s ∈ (drainLoop cfg env fuel k).1, s.limit = drainBatchSize cfg)
    ∧ ((drainLoop cfg env fuel k).2 = .emptyDone →
        ∃ s, (drainLoop cfg env fuel k).1.getLast? = some s ∧ s.batch = [])
    ∧ (∀ e, (drainLoop cfg env fuel k).2 = .cancelled e →
        env.ctxErr (k + (drainLoop cfg env fuel k).1.length) = some e)
    ∧ (∀ e, (drainLoop cfg env fuel k).2 = .storageError e →
        ∃ e0, env.getPendingVideos (k + (drainLoop cfg env fuel k).1.length)
            (drainBatchSize cfg) = .error e0
          ∧ e = "failed to get pending videos: " ++ e0)
    ∧ (∀ es, (drainLoop cfg env fuel k).2 = .processingErrors es →
        ∃ s, (drainLoop cfg env fuel k).1.getLast? = some s
          ∧ s.batch ≠ [] ∧ s.errs = es ∧ es ≠ []) := by
  induction fuel with
  | zero =>
    intro k
    simp [drainLoop]
  | succ fuel ih =>
    intro k
    cases hctx : env.ctxErr k with
    | some e =>
      simp only [drainLoop, hctx]
      refine ⟨by simp, by simp, ?_, by simp, by simp⟩
      intro e2 he2
      simp only [List.length_nil, Nat.add_zero]
      rw [hctx]
      injection he2 with he2
      rw [he2]
    | none =>
      cases hget : env.getPendingVideos k (drainBatchSize cfg) with
      | error e =>
        simp only [drainLoop, hctx, hget]
        refine ⟨by simp, by simp, by simp, ?_, by simp⟩
        intro e2 he2
        injection he2 with he2
        refine ⟨e, ?_, he2.symm⟩
        simpa using hget
      | ok videos =>
        by_cases hv : videos = []
        · simp only [drainLoop, hctx, hget, hv, if_true]
          refine ⟨by simp, ?_, by simp, by simp, by simp⟩
          intro _
          refine ⟨{ iter := k, limit := drainBatchSize cfg, batch := [], errs := [] },
            by simp, rfl⟩
        · simp only [drainLoop, hctx, hget, hv, if_false]
          by_cases herrs : videos.filterMap (processErrMsg env k) = []
          · simp only [herrs, if_true]
            obtain ⟨ihLim, ihEmpty, ihCancel, ihStorage, ihProc⟩ := ih (k + 1)
            refine ⟨?_, ?_, ?_, ?_, ?_⟩
            · intro s hs
              rcases List.mem_cons.mp hs with hs | hs
              · rw [hs]
              · exact ihLim s hs
            · intro hend
              obtain ⟨s, hlast, hbatch⟩ := ihEmpty hend
              exact ⟨s, getLast?_cons_some _ _ _ hlast, hbatch⟩
            · intro e he
              have h2 := ihCancel e he
              have hlen : ∀ s : DrainStep,
                  k + (s :: (drainLoop cfg env fuel (k + 1)).1).length
                    = (k + 1) + (drainLoop cfg env fuel (k + 1)).1.length := by
                intro s
                simp only [List.length_cons]
                omega
              rw [hlen]
              exact h2
            · intro e he
              obtain ⟨e0, hq, hmsg⟩ := ihStorage e he
              refine ⟨e0, ?_, hmsg⟩
              have hlen : ∀ s : DrainStep,
                  k + (s :: (drainLoop cfg env fuel (k + 1)).1).length
                    = (k + 1) + (drainLoop cfg env fuel (k + 1)).1.length := by
                intro s
                simp only [List.length_cons]
                omega
              rw [hlen]
              exact hq
            · intro es hes
              obtain ⟨s, hlast, hsb, hse, hne⟩ := ihProc es hes
              exact ⟨s, getLast?_cons_some _ _ _ hlast, hsb, hse, hne⟩
          · simp only [herrs, if_false]
            refine ⟨by simp, by simp, by simp, by simp, ?_⟩
            intro es hes
            injection hes with hes
            refine ⟨{ iter := k, limit := drainBatchSize cfg, batch := videos,
                      errs := videos.filterMap (processErrMsg env k) },
              by simp, hv, hes, hes ▸ herrs⟩

/-- Environment whose first batch has one video that fails to process. -/
def drainFailEnv : DrainEnv :=
  { ctxErr := fun _ => none,
    getPendingVideos := fun _ _ => .ok [sampleVideo],
    processVideo := fun _ _ => .error "boom" }

/-- C6 — counterexample.  A batch with a failing video ends the loop even
though the Store still reports pending items and the context is alive: the
empty-pending-list and context-cancelled conditions are not the only exits. -/
theorem C6_counterexample :
    drainFailEnv.ctxErr 0 = none
    ∧ drainFailEnv.getPendingVideos 0 (drainBatchSize cfgApi) = .ok [sampleVideo]
    ∧ (VideoProcessor.ProcessPendingVideos cfgApi drainFailEnv 5).2
        = .processingErrors ["failed to process video vid1: boom"] :=
  ⟨rfl, rfl, by rfl⟩

/-- C6 — amended.  The drain repeatedly reads pending items with
`batch_size = max_concurrent_downloads + max_concurrent_uploads` (falling
back to the worker pool size, then 1, when that sum is non-positive) and
ends exactly when: the Store returns an empty list, the context is
cancelled, the pending read fails, or at least one video of a batch failed
to process — the last two in addition to the claim's two conditions (plus
the fuel bound artificial to the embedding). -/
theorem C6_drain_loop_characterization (cfg : Config) (env : DrainEnv) (fuel : Nat) :
    (0 < cfg.maxConcurrentDownloads + cfg.maxConcurrentUploads →
      drainBatchSize cfg = cfg.maxConcurrentDownloads + cfg.maxConcurrentUploads)
    ∧ (∀ s ∈ (VideoProcessor.ProcessPendingVideos cfg env fuel).1,
        s.limit = drainBatchSize cfg)
    ∧ ((VideoProcessor.ProcessPendingVideos cfg env fuel).2 = .emptyDone →
        ∃ s, (VideoProcessor.ProcessPendingVideos cfg env fuel).1.getLast? = some s
          ∧ s.batch = [])
    ∧ (∀ e, (VideoProcessor.ProcessPendingVideos cfg env fuel).2 = .cancelled e →
        env.ctxErr (VideoProcessor.ProcessPendingVideos cfg env fuel).1.length = some e)
    ∧ (∀ e, (VideoProcessor.ProcessPendingVideos cfg env fuel).2 = .storageError e →
        ∃ e0, env.getPendingVideos
            (VideoProcessor.ProcessPendingVideos cfg env fuel).1.length
            (drainBatchSize cfg) = .error e0
          ∧ e = "failed to get pending videos: " ++ e0)
    ∧ (∀ es, (VideoProcessor.ProcessPendingVideos cfg env fuel).2
          = .processingErrors es →
        ∃ s, (VideoProcessor.ProcessPendingVideos cfg env fuel).1.getLast? = some s
          ∧ s.batch ≠ [] ∧ s.errs = es ∧ es ≠ []) := by
  obtain ⟨hLim, hEmpty, hCancel, hStorage, hProc⟩ := drainLoop_spec cfg env fuel 0
  refine ⟨?_, hLim, hEmpty, ?_, ?_, hProc⟩
  · intro hpos
    unfold drainBatchSize
    rw [if_neg (by omega)]
  · intro e he
    simpa using hCancel e he
  · intro e he
    obtain ⟨e0, hq, hmsg⟩ := hStorage e he
    exact ⟨e0, by simpa using hq, hmsg⟩

/-- Environment that drains in one non-empty batch and then sees an empty
pending list. -/
def drainOkEnv : DrainEnv :=
  { ctxErr := fun _ => none,
    getPendingVideos := fun k _ => if k = 0 then .ok [sampleVideo] else .ok [],
    processVideo := fun _ _ => .ok () }

/-- C6 — witness: the batch size for 2 downloads + 3 uploads is 5; a run
over one successful batch ends with `emptyDone`, and the characterization
yields the final empty read. -/
theorem C6_drain_loop_witness :
    drainBatchSize cfgApi = 5
    ∧ (VideoProcessor.ProcessPendingVideos cfgApi drainOkEnv 5).2 = .emptyDone
    ∧ ∃ s, (VideoProcessor.ProcessPendingVideos cfgApi drainOkEnv 5).1.getLast? = some s
        ∧ s.batch = [] :=
  ⟨(C6_drain_loop_characterization cfgApi drainOkEnv 5).1 (by decide), by rfl,
   (C6_drain_loop_characterization cfgApi drainOkEnv 5).2.2.1 (by rfl)⟩

/-! ## Discovery: usecase `AccountMonitor.monitorAccount`

Per job: compute the bootstrap cutoff (only when `LastCheckedAt` is zero),
fetch the channel's recent videos, look every one up in the Store (errors
are counted and do not stop the loop), accept the absent ones that pass the
cutoff, sort the accepted newest-first when there are more than one, save
them (errors again counted, loop continues), and only when no storage error
occurred update the job's last-checked state.  The immediate-processing
launches that follow on success are covered by the structural model below.
`nowStart` is the `time.Now()` of the cutoff computation, `nowUpdate` the
one taken just before `UpdateLastChecked`. -/

/-- Oracles for one discovery scan. -/
structure MonitorEnv where
  fetchVideos : Except String (List Video)
  lookup : String → Except String (Option Video)
  save : Video → Except String Unit
  updateLastChecked : String → String → Time → Except String Unit
  nowStart : Time
  nowUpdate : Time

/-- Observable repository interactions of one scan. -/
inductive MonEvent
  | lookupOk (youtubeID : String)
  | lookupFail (youtubeID : String)
  | saveOk (v : Video)
  | saveFail (v : Video)
  | updateLastChecked (accountID lastVideoID : String) (t : Time)
deriving DecidableEq, Repr

/-- The bootstrap cutoff: `now − 24h` on the first run (`LastCheckedAt`
zero), none afterwards. -/
def monitorCutoff (env : MonitorEnv) (account : Account) : Option Time :=
  if account.lastCheckedAt.isNone then some (env.nowStart - 86400) else none

/-- Whether the dedup-and-cutoff loop accepts a fetched video: its Store
lookup succeeded finding nothing, and on a first run its publish instant is
not before the cutoff. -/
def acceptsVideo (env : MonitorEnv) (cutoff : Option Time) (v : Video) : Bool :=
  match env.lookup v.youTubeVideoID with
  | .ok none =>
    match cutoff with
    | some c => !(decide (v.publishedAt < c))
    | none => true
  | _ => false

/-- One iteration of the dedup-and-cutoff loop for a fetched video: the
lookup event, the accepted video (with `AccountID` set) if any, and the
failure count contribution. -/
def monitorStep (env : MonitorEnv) (account : Account) (cutoff : Option Time)
    (v : Video) : MonEvent × Option Video × Nat :=
  match env.lookup v.youTubeVideoID with
  | .error _ => (.lookupFail v.youTubeVideoID, none, 1)
  | .ok (some _) => (.lookupOk v.youTubeVideoID, none, 0)
  | .ok none =>
    match cutoff with
    | some c =>
      if v.publishedAt < c then (.lookupOk v.youTubeVideoID, none, 0)
      else (.lookupOk v.youTubeVideoID, some { v with accountID := account.id }, 0)
    | none => (.lookupOk v.youTubeVideoID, some { v with accountID := account.id }, 0)

/-- The filter loop: look up each fetched video, record the event, count
failures, and collect the accepted videos (with `AccountID` set) in order. -/
def monitorFilter (env : MonitorEnv) (account : Account) (cutoff : Option Time) :
    List Video → List MonEvent × List Video × Nat
  | [] => ([], [], 0)
  | v :: vs =>
    let st := monitorStep env account cutoff v
    let rest := monitorFilter env account cutoff vs
    (st.1 :: rest.1, st.2.1.toList ++ rest.2.1, st.2.2 + rest.2.2)

/-- Insertion into a newest-first list (model of the `sort.Slice` by
`PublishedAt.After`). -/
def insertByPublishedDesc (v : Video) : List Video → List Video
  | [] => [v]
  | w :: ws =>
    if w.publishedAt < v.publishedAt then v :: w :: ws
    else w :: insertByPublishedDesc v ws

/-- Newest-first sort of the accepted videos. -/
def sortByPublishedDesc (l : List Video) : List Video :=
  l.foldr insertByPublishedDesc []

/-- One save attempt: the event, the persisted video if any, and the
failure count contribution. -/
def saveStep (env : MonitorEnv) (v : Video) : MonEvent × Option Video × Nat :=
  match env.save v with
  | .error _ => (.saveFail v, none, 1)
  | .ok _ => (.saveOk v, some v, 0)

/-- The save loop: attempt every accepted video, record the event, count
failures, and collect the persisted ones in order. -/
def monitorSave (env : MonitorEnv) : List Video → List MonEvent × List Video × Nat
  | [] => ([], [], 0)
  | v :: vs =>
    let st := saveStep env v
    let rest := monitorSave env vs
    (st.1 :: rest.1, st.2.1.toList ++ rest.2.1, st.2.2 + rest.2.2)

/-- The accepted ("new") videos of one scan. -/
def monitorNewVideos (env : MonitorEnv) (account : Account) (videos : List Video) :
    List Video :=
  (monitorFilter env account (monitorCutoff env account) videos).2.1

/-- The accepted videos in save order: sorted newest-first when more than
one (the Go code sorts only then; for zero or one the order is unchanged
either way). -/
def monitorSorted (env : MonitorEnv) (account : Account) (videos : List Video) :
    List Video :=
  let nv := monitorNewVideos env account videos
  if 1 < nv.length then sortByPublishedDesc nv else nv

/-- The `lastVideoID` passed to `UpdateLastChecked`: the first persisted
video's source id, or the job's previous value when none persisted. -/
def monitorLastVideoID (env : MonitorEnv) (account : Account) (videos : List Video) :
    String :=
  match (monitorSave env (monitorSorted env account videos)).2.1.head? with
  | some v => v.youTubeVideoID
  | none => account.lastVideoID

/-- Total storage failures of the scan (lookup failures plus save failures). -/
def monitorErrCount (env : MonitorEnv) (account : Account) (videos : List Video) : Nat :=
  (monitorFilter env account (monitorCutoff env account) videos).2.2
    + (monitorSave env (monitorSorted env account videos)).2.2

/-- The post-fetch body of `monitorAccount`: filter, sort, save, and — only
when no storage error occurred — update the job's last-checked state. -/
def monitorScan (env : MonitorEnv) (account : Account) (videos : List Video) :
    List MonEvent × Except String Unit :=
  if monitorErrCount env account videos ≠ 0 then
    ((monitorFilter env account (monitorCutoff env account) videos).1
       ++ (monitorSave env (monitorSorted env account videos)).1,
     .error ("storage errors occurred while processing account " ++ account.id))
  else
    match env.updateLastChecked account.id (monitorLastVideoID env account videos)
        env.nowUpdate with
    | .error e =>
      ((monitorFilter env account (monitorCutoff env account) videos).1
         ++ (monitorSave env (monitorSorted env account videos)).1
         ++ [.updateLastChecked account.id (monitorLastVideoID env account videos)
              env.nowUpdate],
       .error ("failed to update last checked: " ++ e))
    | .ok _ =>
      ((monitorFilter env account (monitorCutoff env account) videos).1
         ++ (monitorSave env (monitorSorted env account videos)).1
         ++ [.updateLastChecked account.id (monitorLastVideoID env account videos)
              env.nowUpdate],
       .ok ())

namespace AccountMonitor

/-- usecase `AccountMonitor.monitorAccount`: the per-job scan. -/
def monitorAccount (env : MonitorEnv) (account : Account) :
    List MonEvent × Except String Unit :=
  match env.fetchVideos with
  | .error e =>
    ([], .error ("failed to get latest videos for YouTube channel "
      ++ account.youTubeChannelID ++ " (TikTok account "
      ++ account.tikTokAccountID ++ "): " ++ e))
  | .ok videos => monitorScan env account videos

end AccountMonitor

/-- Whether a scan trace records any lookup or save failure. -/
def monHasStorageFailure (tr : List MonEvent) : Bool :=
  tr.any (fun ev =>
    match ev with
    | .lookupFail _ => true
    | .saveFail _ => true
    | _ => false)

/-- Characterization of one filter iteration: the accepted video is
determined by `acceptsVideo`, and the event / failure count reflect the
lookup outcome. -/
theorem monitorStep_char (env : MonitorEnv) (account : Account) (cutoff : Option Time)
    (v : Video) :
    ((monitorStep env account cutoff v).2.1
      = (if acceptsVideo env cutoff v then some { v with accountID := account.id }
         else none))
    ∧ ((monitorStep env account cutoff v).1 = MonEvent.lookupOk v.youTubeVideoID
        ∧ (monitorStep env account cutoff v).2.2 = 0
      ∨ (monitorStep env account cutoff v).1 = MonEvent.lookupFail v.youTubeVideoID
        ∧ (monitorStep env account cutoff v).2.2 = 1) := by
  unfold monitorStep acceptsVideo
  cases env.lookup v.youTubeVideoID with
  | error e => simp
  | ok o =>
    cases o with
    | some w => simp
    | none =>
      cases cutoff with
      | some c => by_cases hc : v.publishedAt < c <;> simp [hc]
      | none => simp

/-- Characterization of one save attempt. -/
theorem saveStep_char (env : MonitorEnv) (v : Video) :
    (saveStep env v).1 = MonEvent.saveOk v ∧ (saveStep env v).2.1 = some v
      ∧ (saveStep env v).2.2 = 0
    ∨ (saveStep env v).1 = MonEvent.saveFail v ∧ (saveStep env v).2.1 = none
      ∧ (saveStep env v).2.2 = 1 := by
  unfold saveStep
  cases env.save v with
  | error e => simp
  | ok u => simp

/-- The filter phase records only lookup events. -/
theorem monitorFilter_events (env : MonitorEnv) (account : Account) (cutoff : Option Time) :
    ∀ (videos : List Video) (ev : MonEvent),
      ev ∈ (monitorFilter env account cutoff videos).1 →
      (∃ y, ev = MonEvent.lookupOk y) ∨ (∃ y, ev = MonEvent.lookupFail y) := by
  intro videos
  induction videos with
  | nil => intro ev h; simp [monitorFilter] at h
  | cons v vs ih =>
    intro ev h
    simp only [monitorFilter, List.mem_cons] at h
    rcases h with h | h
    · rcases (monitorStep_char env account cutoff v).2 with ⟨h1, _⟩ | ⟨h1, _⟩
      · exact Or.inl ⟨v.youTubeVideoID, by rw [h, h1]⟩
      · exact Or.inr ⟨v.youTubeVideoID, by rw [h, h1]⟩
    · exact ih ev h

/-- The filter phase's failure count is zero exactly when no lookup failure
was recorded. -/
theorem monitorFilter_err_zero_iff (env : MonitorEnv) (account : Account)
    (cutoff : Option Time) : ∀ videos : List Video,
    ((monitorFilter env account cutoff videos).2.2 = 0
      ↔ ∀ y, MonEvent.lookupFail y ∉ (monitorFilter env account cutoff videos).1) := by
  intro videos
  induction videos with
  | nil => simp [monitorFilter]
  | cons v vs ih =>
    simp only [monitorFilter, List.mem_cons, Nat.add_eq_zero]
    rcases (monitorStep_char env account cutoff v).2 with ⟨h1, h2⟩ | ⟨h1, h2⟩ <;>
      rw [h1, h2]
    · constructor
      · intro h y
        rw [not_or]
        exact ⟨by simp, (ih.mp h.2) y⟩
      · intro h
        refine ⟨rfl, ih.mpr ?_⟩
        intro y
        exact fun hmem => (not_or.mp (h y)).2 hmem
    · constructor
      · intro h; omega
      · intro h
        exact absurd (Or.inl rfl) (h v.youTubeVideoID)

/-- Every fetched video is looked up, storage failures on other items
notwithstanding. -/
theorem monitorFilter_all (env : MonitorEnv) (account : Account) (cutoff : Option Time) :
    ∀ videos : List Video, ∀ v ∈ videos,
      MonEvent.lookupOk v.youTubeVideoID ∈ (monitorFilter env account cutoff videos).1
      ∨ MonEvent.lookupFail v.youTubeVideoID
          ∈ (monitorFilter env account cutoff videos).1 := by
  intro videos
  induction videos with
  | nil => intro v hv; simp at hv
  | cons w ws ih =>
    intro v hv
    rcases List.mem_cons.mp hv with hv | hv
    · subst hv
      rcases (monitorStep_char env account cutoff v).2 with ⟨h1, _⟩ | ⟨h1, _⟩
      · left; simp only [monitorFilter, List.mem_cons]; exact Or.inl h1.symm
      · right; simp only [monitorFilter, List.mem_cons]; exact Or.inl h1.symm
    · rcases ih v hv with h | h
      · left; simp only [monitorFilter, List.mem_cons]; exact Or.inr h
      · right; simp only [monitorFilter, List.mem_cons]; exact Or.inr h

/-- The accepted list is exactly the fetched list filtered by
`acceptsVideo`, each with `AccountID` set to the job's id. -/
theorem monitorFilter_accepted (env : MonitorEnv) (account : Account)
    (cutoff : Option Time) : ∀ videos : List Video,
    (monitorFilter env account cutoff videos).2.1
      = (videos.filter (acceptsVideo env cutoff)).map
          (fun v => { v with accountID := account.id }) := by
  intro videos
  induction videos with
  | nil => simp [monitorFilter]
  | cons v vs ih =>
    simp only [monitorFilter]
    rw [(monitorStep_char env account cutoff v).1]
    by_cases ha : acceptsVideo env cutoff v <;>
      simp [List.filter, ha, ih]

/-- The save phase records only save events and only for its input. -/
theorem monitorSave_events (env : MonitorEnv) :
    ∀ (l : List Video) (ev : MonEvent), ev ∈ (monitorSave env l).1 →
      (∃ v ∈ l, ev = MonEvent.saveOk v) ∨ (∃ v ∈ l, ev = MonEvent.saveFail v) := by
  intro l
  induction l with
  | nil => intro ev h; simp [monitorSave] at h
  | cons v vs ih =>
    intro ev h
    simp only [monitorSave, List.mem_cons] at h
    rcases h with h | h
    · rcases saveStep_char env v with ⟨h1, _, _⟩ | ⟨h1, _, _⟩
      · exact Or.inl ⟨v, by simp, by rw [h, h1]⟩
      · exact Or.inr ⟨v, by simp, by rw [h, h1]⟩
    · rcases ih ev h with ⟨w, hw, he⟩ | ⟨w, hw, he⟩
      · exact Or.inl ⟨w, by simp [hw], he⟩
      · exact Or.inr ⟨w, by simp [hw], he⟩

/-- The save phase's failure count is zero exactly when no save failure was
recorded. -/
theorem monitorSave_err_zero_iff (env : MonitorEnv) : ∀ l : List Video,
    ((monitorSave env l).2.2 = 0
      ↔ ∀ v, MonEvent.saveFail v ∉ (monitorSave env l).1) := by
  intro l
  induction l with
  | nil => simp [monitorSave]
  | cons v vs ih =>
    simp only [monitorSave, List.mem_cons, Nat.add_eq_zero]
    rcases saveStep_char env v with ⟨h1, _, h2⟩ | ⟨h1, _, h2⟩ <;> rw [h1, h2]
    · constructor
      · intro h w
        rw [not_or]
        exact ⟨by simp, (ih.mp h.2) w⟩
      · intro h
        refine ⟨rfl, ih.mpr ?_⟩
        intro w
        exact fun hmem => (not_or.mp (h w)).2 hmem
    · constructor
      · intro h; omega
      · intro h
        exact absurd (Or.inl rfl) (h v)

/-- Every accepted video gets a save attempt, earlier failures
notwithstanding. -/
theorem monitorSave_all (env : MonitorEnv) : ∀ l : List Video, ∀ v ∈ l,
    MonEvent.saveOk v ∈ (monitorSave env l).1
    ∨ MonEvent.saveFail v ∈ (monitorSave env l).1 := by
  intro l
  induction l with
  | nil => intro v hv; simp at hv
  | cons w ws ih =>
    intro v hv
    rcases List.mem_cons.mp hv with hv | hv
    · subst hv
      rcases saveStep_char env v with ⟨h1, _, _⟩ | ⟨h1, _, _⟩
      · left; simp only [monitorSave, List.mem_cons]; exact Or.inl h1.symm
      · right; simp only [monitorSave, List.mem_cons]; exact Or.inl h1.symm
    · rcases ih v hv with h | h
      · left; simp only [monitorSave, List.mem_cons]; exact Or.inr h
      · right; simp only [monitorSave, List.mem_cons]; exact Or.inr h

/-- With no save failure, every input is persisted, in order. -/
theorem monitorSave_persisted_all (env : MonitorEnv) : ∀ l : List Video,
    (monitorSave env l).2.2 = 0 → (monitorSave env l).2.1 = l := by
  intro l
  induction l with
  | nil => simp [monitorSave]
  | cons v vs ih =>
    intro h
    simp only [monitorSave, Nat.add_eq_zero] at h ⊢
    rcases saveStep_char env v with ⟨_, h1, h2⟩ | ⟨_, h1, h2⟩
    · rw [h1, ih h.2]
      simp
    · rw [h2] at h
      omega

/-- Membership through insertion. -/
theorem insertByPublishedDesc_mem (v : Video) : ∀ (l : List Video) (x : Video),
    x ∈ insertByPublishedDesc v l ↔ x = v ∨ x ∈ l := by
  intro l
  induction l with
  | nil => intro x; simp [insertByPublishedDesc]
  | cons w ws ih =>
    intro x
    unfold insertByPublishedDesc
    by_cases h : w.publishedAt < v.publishedAt <;> simp [h, ih]
    tauto

/-- Membership through the newest-first sort. -/
theorem sortByPublishedDesc_mem : ∀ (l : List Video) (x : Video),
    x ∈ sortByPublishedDesc l ↔ x ∈ l := by
  intro l
  induction l with
  | nil => intro x; simp [sortByPublishedDesc]
  | cons v vs ih =>
    intro x
    simp only [sortByPublishedDesc, List.foldr] at ih ⊢
    rw [insertByPublishedDesc_mem]
    simp [ih]

/-- The head of the newest-first sort is a maximal element. -/
theorem sortByPublishedDesc_head_max : ∀ (l : List Video) (h0 : Video) (t : List Video),
    sortByPublishedDesc l = h0 :: t →
    h0 ∈ l ∧ ∀ x ∈ l, x.publishedAt ≤ h0.publishedAt := by
  intro l
  induction l with
  | nil => intro h0 t h; simp [sortByPublishedDesc] at h
  | cons v vs ih =>
    intro h0 t h
    have hstep : sortByPublishedDesc (v :: vs)
        = insertByPublishedDesc v (sortByPublishedDesc vs) := rfl
    rw [hstep] at h
    cases hs : sortByPublishedDesc vs with
    | nil =>
      rw [hs] at h
      unfold insertByPublishedDesc at h
      injection h with h1 h2
      subst h1
      have hvs : vs = [] := by
        cases vs with
        | nil => rfl
        | cons a as =>
          exfalso
          have : a ∈ sortByPublishedDesc (a :: as) :=
            (sortByPublishedDesc_mem (a :: as) a).mpr (by simp)
          rw [hs] at this
          simp at this
      subst hvs
      exact ⟨by simp, by intro x hx; simp at hx; rw [hx]⟩
    | cons w ws =>
      obtain ⟨hwmem, hwmax⟩ := ih w ws hs
      rw [hs] at h
      unfold insertByPublishedDesc at h
      by_cases hlt : w.publishedAt < v.publishedAt
      · rw [if_pos hlt] at h
        injection h with h1 h2
        subst h1
        refine ⟨by simp, ?_⟩
        intro x hx
        rcases List.mem_cons.mp hx with hx | hx
        · rw [hx]
        · exact le_of_lt (lt_of_le_of_lt (hwmax x hx) hlt)
      · rw [if_neg hlt] at h
        injection h with h1 h2
        subst h1
        refine ⟨by simp [hwmem], ?_⟩
        intro x hx
        rcases List.mem_cons.mp hx with hx | hx
        · rw [hx]; exact le_of_not_lt hlt
        · exact hwmax x hx

/-- Membership in the save-order list is membership in the accepted list. -/
theorem monitorSorted_mem (env : MonitorEnv) (account : Account) (videos : List Video)
    (x : Video) :
    x ∈ monitorSorted env account videos ↔ x ∈ monitorNewVideos env account videos := by
  simp only [monitorSorted]
  split
  · exact sortByPublishedDesc_mem _ x
  · exact Iff.rfl

/-- The head of the save-order list is a maximal accepted video. -/
theorem monitorSorted_head_max (env : MonitorEnv) (account : Account)
    (videos : List Video) (h0 : Video) (t : List Video)
    (h : monitorSorted env account videos = h0 :: t) :
    h0 ∈ monitorNewVideos env account videos
    ∧ ∀ x ∈ monitorNewVideos env account videos, x.publishedAt ≤ h0.publishedAt := by
  simp only [monitorSorted] at h
  split at h
  · exact sortByPublishedDesc_head_max _ h0 t h
  · rw [h]
    rename_i hlen
    have ht : t = [] := by
      rw [h] at hlen
      simp at hlen
      cases t with
      | nil => rfl
      | cons a as => simp at hlen
    subst ht
    exact ⟨by simp, by intro x hx; simp at hx; rw [hx]⟩

/-- A trace has no storage failure iff it records no lookup failure and no
save failure. -/
theorem monHasStorageFailure_eq_false_iff (tr : List MonEvent) :
    monHasStorageFailure tr = false
      ↔ (∀ y, MonEvent.lookupFail y ∉ tr) ∧ (∀ v, MonEvent.saveFail v ∉ tr) := by
  unfold monHasStorageFailure
  rw [List.any_eq_false]
  constructor
  · intro h
    exact ⟨fun y hy => by simpa using h _ hy, fun v hv => by simpa using h _ hv⟩
  · rintro ⟨h1, h2⟩ ev hev
    cases ev with
    | lookupOk y => simp
    | lookupFail y => exact absurd hev (h1 y)
    | saveOk v => simp
    | saveFail v => exact absurd hev (h2 v)
    | updateLastChecked a l t => simp

/-- Both scan branches emit the filter trace followed by the save trace;
only the no-error branch appends the last-checked update. -/
theorem monitorScan_trace (env : MonitorEnv) (account : Account) (videos : List Video) :
    (monitorErrCount env account videos ≠ 0 →
      monitorScan env account videos
        = ((monitorFilter env account (monitorCutoff env account) videos).1
            ++ (monitorSave env (monitorSorted env account videos)).1,
           .error ("storage errors occurred while processing account " ++ account.id)))
    ∧ (monitorErrCount env account videos = 0 →
      (monitorScan env account videos).1
        = (monitorFilter env account (monitorCutoff env account) videos).1
            ++ (monitorSave env (monitorSorted env account videos)).1
            ++ [.updateLastChecked account.id (monitorLastVideoID env account videos)
                 env.nowUpdate]) := by
  constructor
  · intro h
    unfold monitorScan
    rw [if_pos h]
  · intro h
    unfold monitorScan
    rw [if_neg (by omega)]
    cases env.updateLastChecked account.id (monitorLastVideoID env account videos)
        env.nowUpdate <;> rfl

/-- C3 — confirmed.  Storage errors on the lookup or save of single items do
not abort the scan: every fetched item is still looked up and every accepted
item still gets a save attempt.  When at least one lookup or save failed,
the job's last-checked update is skipped entirely and the scan reports the
storage error; when none failed, `UpdateLastChecked` is called with the scan
time and with the newest accepted item's source id when anything was
accepted, else with the job's unchanged previous value. -/
theorem C3_storage_error_policy (env : MonitorEnv) (account : Account)
    (videos : List Video) (hfetch : env.fetchVideos = .ok videos) :
    (∀ v ∈ videos,
        MonEvent.lookupOk v.youTubeVideoID ∈ (AccountMonitor.monitorAccount env account).1
        ∨ MonEvent.lookupFail v.youTubeVideoID
            ∈ (AccountMonitor.monitorAccount env account).1)
    ∧ (∀ v ∈ monitorNewVideos env account videos,
        MonEvent.saveOk v ∈ (AccountMonitor.monitorAccount env account).1
        ∨ MonEvent.saveFail v ∈ (AccountMonitor.monitorAccount env account).1)
    ∧ (monHasStorageFailure (AccountMonitor.monitorAccount env account).1 = true →
        (∀ a l t, MonEvent.updateLastChecked a l t
            ∉ (AccountMonitor.monitorAccount env account).1)
        ∧ (AccountMonitor.monitorAccount env account).2
            = .error ("storage errors occurred while processing account " ++ account.id))
    ∧ (monHasStorageFailure (AccountMonitor.monitorAccount env account).1 = false →
        MonEvent.updateLastChecked account.id (monitorLastVideoID env account videos)
            env.nowUpdate ∈ (AccountMonitor.monitorAccount env account).1
        ∧ (monitorNewVideos env account videos = [] →
            monitorLastVideoID env account videos = account.lastVideoID)
        ∧ (monitorNewVideos env account videos ≠ [] →
            ∃ w, w ∈ monitorNewVideos env account videos
              ∧ monitorLastVideoID env account videos = w.youTubeVideoID
              ∧ ∀ x ∈ monitorNewVideos env account videos,
                  x.publishedAt ≤ w.publishedAt)) := by
  have hacc : AccountMonitor.monitorAccount env account = monitorScan env account videos := by
    unfold AccountMonitor.monitorAccount
    rw [hfetch]
  rw [hacc]
  have hsub1 : ∀ ev ∈ (monitorFilter env account (monitorCutoff env account) videos).1,
      ev ∈ (monitorScan env account videos).1 := by
    intro ev hev
    by_cases herr : monitorErrCount env account videos ≠ 0
    · rw [(monitorScan_trace env account videos).1 herr]
      exact List.mem_append.mpr (Or.inl hev)
    · rw [(monitorScan_trace env account videos).2 (by omega)]
      simp only [List.append_assoc, List.mem_append]
      exact Or.inl hev
  have hsub2 : ∀ ev ∈ (monitorSave env (monitorSorted env account videos)).1,
      ev ∈ (monitorScan env account videos).1 := by
    intro ev hev
    by_cases herr : monitorErrCount env account videos ≠ 0
    · rw [(monitorScan_trace env account videos).1 herr]
      exact List.mem_append.mpr (Or.inr hev)
    · rw [(monitorScan_trace env account videos).2 (by omega)]
      simp only [List.append_assoc, List.mem_append]
      exact Or.inr (Or.inl hev)
  refine ⟨?_, ?_, ?_, ?_⟩
  · intro v hv
    rcases monitorFilter_all env account (monitorCutoff env account) videos v hv with h | h
    · exact Or.inl (hsub1 _ h)
    · exact Or.inr (hsub1 _ h)
  · intro v hv
    have hv2 : v ∈ monitorSorted env account videos := (monitorSorted_mem env account videos v).mpr hv
    rcases monitorSave_all env (monitorSorted env account videos) v hv2 with h | h
    · exact Or.inl (hsub2 _ h)
    · exact Or.inr (hsub2 _ h)
  · intro hfail
    by_cases herr : monitorErrCount env account videos ≠ 0
    · rw [(monitorScan_trace env account videos).1 herr]
      constructor
      · intro a l t hmem
        rcases List.mem_append.mp hmem with h | h
        · rcases monitorFilter_events env account (monitorCutoff env account) videos _ h
            with ⟨y, hy⟩ | ⟨y, hy⟩ <;> simp at hy
        · rcases monitorSave_events env (monitorSorted env account videos) _ h
            with ⟨w, _, hy⟩ | ⟨w, _, hy⟩ <;> simp at hy
      · rfl
    · exfalso
      have h0 : monitorErrCount env account videos = 0 := by omega
      have hf0 : (monitorFilter env account (monitorCutoff env account) videos).2.2 = 0
          ∧ (monitorSave env (monitorSorted env account videos)).2.2 = 0 := by
        unfold monitorErrCount at h0
        omega
      have hnofail : monHasStorageFailure (monitorScan env account videos).1 = false := by
        rw [(monitorScan_trace env account videos).2 h0,
          monHasStorageFailure_eq_false_iff]
        constructor
        · intro y hy
          simp only [List.append_assoc, List.mem_append] at hy
          rcases hy with hy | hy | hy
          · exact (monitorFilter_err_zero_iff env account
              (monitorCutoff env account) videos).mp hf0.1 y hy
          · rcases monitorSave_events env (monitorSorted env account videos) _ hy
              with ⟨w, _, hc⟩ | ⟨w, _, hc⟩ <;> simp at hc
          · simp at hy
        · intro v hv
          simp only [List.append_assoc, List.mem_append] at hv
          rcases hv with hv | hv | hv
          · rcases monitorFilter_events env account (monitorCutoff env account) videos _ hv
              with ⟨y, hc⟩ | ⟨y, hc⟩ <;> simp at hc
          · exact (monitorSave_err_zero_iff env (monitorSorted env account videos)).mp
              hf0.2 v hv
          · simp at hv
      rw [hnofail] at hfail
      simp at hfail
  · intro hnofail
    have hAB := (monHasStorageFailure_eq_false_iff _).mp hnofail
    have hf0 : (monitorFilter env account (monitorCutoff env account) videos).2.2 = 0 :=
      (monitorFilter_err_zero_iff env account (monitorCutoff env account) videos).mpr
        (fun y hy => hAB.1 y (hsub1 _ hy))
    have hs0 : (monitorSave env (monitorSorted env account videos)).2.2 = 0 :=
      (monitorSave_err_zero_iff env (monitorSorted env account videos)).mpr
        (fun v hv => hAB.2 v (hsub2 _ hv))
    have herr0 : monitorErrCount env account videos = 0 := by
      unfold monitorErrCount
      omega
    refine ⟨?_, ?_, ?_⟩
    · rw [(monitorScan_trace env account videos).2 herr0]
      simp
    · intro hnil
      have hsortnil : monitorSorted env account videos = [] := by
        simp [monitorSorted, hnil]
      unfold monitorLastVideoID
      rw [hsortnil]
      rfl
    · intro hne
      obtain ⟨y, hy⟩ := List.exists_mem_of_ne_nil _ hne
      have hys : y ∈ monitorSorted env account videos :=
        (monitorSorted_mem env account videos y).mpr hy
      cases hsort : monitorSorted env account videos with
      | nil =>
        rw [hsort] at hys
        simp at hys
      | cons h0 t =>
        have hpersist :=
          monitorSave_persisted_all env (monitorSorted env account videos) hs0
        have hlid : monitorLastVideoID env account videos = h0.youTubeVideoID := by
          unfold monitorLastVideoID
          rw [hpersist, hsort]
          rfl
        obtain ⟨hmem, hmax⟩ := monitorSorted_head_max env account videos h0 t hsort
        exact ⟨h0, hmem, hlid, hmax⟩

/-- C4 — confirmed.  The accepted set is exactly the fetched items that are
absent from the Store and pass the cutoff.  On a first run (`LastCheckedAt`
unset) an absent item is accepted iff its publish instant is not before
`now − 24h`; on subsequent runs no cutoff applies (absence alone decides);
an item already present is always skipped; and only accepted items are ever
offered to `Save`. -/
theorem C4_bootstrap_cutoff_and_dedup (env : MonitorEnv) (account : Account)
    (videos : List Video) (hfetch : env.fetchVideos = .ok videos) :
    (monitorNewVideos env account videos
      = (videos.filter (acceptsVideo env (monitorCutoff env account))).map
          (fun v => { v with accountID := account.id }))
    ∧ (account.lastCheckedAt = none →
        ∀ v : Video, acceptsVideo env (monitorCutoff env account) v = true
          ↔ (env.lookup v.youTubeVideoID = .ok none
             ∧ ¬(v.publishedAt < env.nowStart - 86400)))
    ∧ (∀ t0, account.lastCheckedAt = some t0 →
        ∀ v : Video, acceptsVideo env (monitorCutoff env account) v = true
          ↔ env.lookup v.youTubeVideoID = .ok none)
    ∧ (∀ v w, env.lookup v.youTubeVideoID = .ok (some w) →
        acceptsVideo env (monitorCutoff env account) v = false)
    ∧ (∀ v, (MonEvent.saveOk v ∈ (AccountMonitor.monitorAccount env account).1
          ∨ MonEvent.saveFail v ∈ (AccountMonitor.monitorAccount env account).1) →
        v ∈ monitorNewVideos env account videos) := by
  have hacc : AccountMonitor.monitorAccount env account = monitorScan env account videos := by
    unfold AccountMonitor.monitorAccount
    rw [hfetch]
  refine ⟨monitorFilter_accepted env account (monitorCutoff env account) videos,
    ?_, ?_, ?_, ?_⟩
  · intro hfirst v
    have hcut : monitorCutoff env account = some (env.nowStart - 86400) := by
      simp [monitorCutoff, hfirst]
    rw [hcut]
    unfold acceptsVideo
    cases hl : env.lookup v.youTubeVideoID with
    | error e => simp [hl]
    | ok o =>
      cases o with
      | some w => simp [hl]
      | none => by_cases hc : v.publishedAt < env.nowStart - 86400 <;> simp [hl, hc]
  · intro t0 hset v
    have hcut : monitorCutoff env account = none := by
      simp [monitorCutoff, hset]
    rw [hcut]
    unfold acceptsVideo
    cases hl : env.lookup v.youTubeVideoID with
    | error e => simp [hl]
    | ok o =>
      cases o with
      | some w => simp [hl]
      | none => simp [hl]
  · intro v w hl
    unfold acceptsVideo
    rw [hl]
  · intro v hv
    rw [hacc] at hv
    have hscan : ∀ ev, ev ∈ (monitorScan env account videos).1 →
        ev ∈ (monitorFilter env account (monitorCutoff env account) videos).1
        ∨ ev ∈ (monitorSave env (monitorSorted env account videos)).1
        ∨ (∃ a l t, ev = MonEvent.updateLastChecked a l t) := by
      intro ev hev
      by_cases herr : monitorErrCount env account videos ≠ 0
      · rw [(monitorScan_trace env account videos).1 herr] at hev
        rcases List.mem_append.mp hev with h | h
        · exact Or.inl h
        · exact Or.inr (Or.inl h)
      · rw [(monitorScan_trace env account videos).2 (by omega)] at hev
        simp only [List.append_assoc, List.mem_append] at hev
        rcases hev with h | h | h
        · exact Or.inl h
        · exact Or.inr (Or.inl h)
        · simp at h
          exact Or.inr (Or.inr ⟨_, _, _, h⟩)
    rcases hv with hv | hv
    all_goals
      rcases hscan _ hv with h | h | ⟨a, l, t, h⟩
    · rcases monitorFilter_events env account (monitorCutoff env account) videos _ h
        with ⟨y, hc⟩ | ⟨y, hc⟩ <;> simp at hc
    · rcases monitorSave_events env (monitorSorted env account videos) _ h
        with ⟨w, hw, hc⟩ | ⟨w, hw, hc⟩
      · injection hc with hc
        rw [hc]
        exact (monitorSorted_mem env account videos w).mp hw
      · simp at hc
    · simp at h
    · rcases monitorFilter_events env account (monitorCutoff env account) videos _ h
        with ⟨y, hc⟩ | ⟨y, hc⟩ <;> simp at hc
    · rcases monitorSave_events env (monitorSorted env account videos) _ h
        with ⟨w, hw, hc⟩ | ⟨w, hw, hc⟩
      · simp at hc
      · injection hc with hc
        rw [hc]
        exact (monitorSorted_mem env account videos w).mp hw
    · simp at h

/-- First fresh-bootstrap scenario video: published one hour before the
scan (instant 196400 with now = 200000). -/
def monV1 : Video :=
  { id := "", youTubeVideoID := "ytA", accountID := "", title := "A",
    description := "", thumbnailURL := "", videoURL := "", localFilePath := "",
    status := some .pending, errorMessage := "", tikTokVideoID := "",
    createdAt := 0, updatedAt := 0, publishedAt := 196400 }

/-- Scenario video published 36 hours before the scan — behind the 24h
bootstrap window. -/
def monV2 : Video :=
  { monV1 with youTubeVideoID := "ytB", title := "B", publishedAt := 70400 }

/-- Scenario video published 12 hours before the scan. -/
def monV3 : Video :=
  { monV1 with youTubeVideoID := "ytC", title := "C", publishedAt := 156800 }

/-- A never-checked job for the bootstrap scenario. -/
def monAccount0 : Account :=
  { id := "accM", youTubeChannelID := "UCabc", tikTokAccountID := "ttk123",
    tikTokAccessToken := "T0", tikTokRefreshToken := "",
    tikTokTokenExpiresAt := none, lastCheckedAt := none, lastVideoID := "",
    isActive := true, createdAt := 0, updatedAt := 0 }

/-- Environment for the fresh-bootstrap scenario: three fetched videos,
nothing in the Store, every write succeeds. -/
def monEnvOk : MonitorEnv :=
  { fetchVideos := .ok [monV1, monV2, monV3],
    lookup := fun _ => .ok none,
    save := fun _ => .ok (),
    updateLastChecked := fun _ _ _ => .ok (),
    nowStart := 200000,
    nowUpdate := 200123 }

/-- C3 — witness: in the fresh-bootstrap scenario every fetched video —
including the one the bootstrap window filters out — is looked up, and with
no failure the last-checked update is recorded with the scan time. -/
theorem C3_storage_error_policy_witness :
    MonEvent.lookupOk monV2.youTubeVideoID
        ∈ (AccountMonitor.monitorAccount monEnvOk monAccount0).1
    ∧ MonEvent.updateLastChecked monAccount0.id
        (monitorLastVideoID monEnvOk monAccount0 [monV1, monV2, monV3]) 200123
        ∈ (AccountMonitor.monitorAccount monEnvOk monAccount0).1 := by
  have h := C3_storage_error_policy monEnvOk monAccount0 [monV1, monV2, monV3] rfl
  constructor
  · rcases h.1 monV2 (by decide) with hm | hm
    · exact hm
    · exfalso
      revert hm
      decide
  · exact (h.2.2.2 (by decide)).1

/-- C4 — witness: in the fresh-bootstrap scenario exactly the one-hour-old
and twelve-hour-old videos are accepted (newest first is not required here —
this is the filter order), and the 36-hour-old video is rejected by the
bootstrap cutoff. -/
theorem C4_bootstrap_cutoff_and_dedup_witness :
    monitorNewVideos monEnvOk monAccount0 [monV1, monV2, monV3]
      = [{ monV1 with accountID := "accM" }, { monV3 with accountID := "accM" }]
    ∧ acceptsVideo monEnvOk (monitorCutoff monEnvOk monAccount0) monV2 = false := by
  have h := C4_bootstrap_cutoff_and_dedup monEnvOk monAccount0 [monV1, monV2, monV3] rfl
  constructor
  · rw [h.1]
    decide
  · cases ha : acceptsVideo monEnvOk (monitorCutoff monEnvOk monAccount0) monV2 with
    | false => rfl
    | true =>
      exfalso
      obtain ⟨-, hcut⟩ := (h.2.1 rfl monV2).mp ha
      exact hcut (by decide)

/-! ## Structural model: channel allocation and the immediate-processing path

C7 is about *which* admission channel bounds the immediate-processing tasks.
Channels are modelled by allocation order and capacity: `make(chan struct{},
n)` yields a fresh identity.  `NewAccountMonitor` allocates its own
`processingLimiter`; `NewVideoProcessor` allocates `workerPool`,
`downloadSem` and `uploadSem`; cmd/main.go constructs the monitor first,
then the processor, then links them via `SetVideoProcessor`.
`launchImmediateProcessing` acquires the monitor's limiter — not the
processor's worker pool — and wraps each item in
`context.WithTimeout(baseCtx, 30*time.Minute)`; the public `ProcessVideo`
it calls acquires nothing itself. -/

/-- A buffered channel identified by allocation order. -/
structure Chan where
  allocId : Nat
  capacity : Int
deriving DecidableEq, Repr

/-- The channels `NewVideoProcessor` creates. -/
structure VideoProcessorChans where
  workerPool : Chan
  downloadSem : Chan
  uploadSem : Chan
deriving DecidableEq, Repr

/-- The monitor's channel state: its dedicated limiter and whether a
processor has been attached. -/
structure AccountMonitorChans where
  processingLimiter : Chan
  hasProcessor : Bool
deriving DecidableEq, Repr

/-- usecase `NewAccountMonitor`: allocates the dedicated processing limiter
sized `WorkerPoolSize`, clamped up to 1 when non-positive. -/
def NewAccountMonitor (cfg : Config) (nextId : Nat) : AccountMonitorChans × Nat :=
  let limiterSize := if cfg.workerPoolSize ≤ 0 then 1 else cfg.workerPoolSize
  ({ processingLimiter := { allocId := nextId, capacity := limiterSize },
     hasProcessor := false },
   nextId + 1)

/-- usecase `NewVideoProcessor`: allocates the general worker pool and the
two stage semaphores. -/
def NewVideoProcessor (cfg : Config) (nextId : Nat) : VideoProcessorChans × Nat :=
  ({ workerPool := { allocId := nextId, capacity := cfg.workerPoolSize },
     downloadSem := { allocId := nextId + 1, capacity := cfg.maxConcurrentDownloads },
     uploadSem := { allocId := nextId + 2, capacity := cfg.maxConcurrentUploads } },
   nextId + 3)

/-- cmd/main.go wiring: the monitor is constructed before the processor and
then linked to it with `SetVideoProcessor`. -/
def buildSystem (cfg : Config) : AccountMonitorChans × VideoProcessorChans :=
  let m := NewAccountMonitor cfg 0
  let p := NewVideoProcessor cfg m.2
  ({ m.1 with hasProcessor := true }, p.1)

/-- What `launchImmediateProcessing` blocks on and the per-item timeout it
imposes: the monitor's own limiter and 30 minutes — or nothing at all when
no processor is attached. -/
def immediateAdmission (m : AccountMonitorChans) : Option (Chan × Int) :=
  if m.hasProcessor then some (m.processingLimiter, 30 * 60) else none

/-- The admission channel each `ProcessPendingVideos` worker blocks on. -/
def drainAdmission (p : VideoProcessorChans) : Chan :=
  p.workerPool

/-- C7 — counterexample.  In the system as wired by cmd/main.go, the
immediate-processing path acquires the monitor's dedicated limiter, which is
a different channel (different allocation) from the drain's general worker
pool — the claim's "same admission channel (general worker pool)" is false,
even though the capacities coincide for this configuration. -/
theorem C7_counterexample :
    immediateAdmission (buildSystem cfgApi).1
      = some ((buildSystem cfgApi).1.processingLimiter, 1800)
    ∧ (buildSystem cfgApi).1.processingLimiter.allocId
        ≠ (drainAdmission (buildSystem cfgApi).2).allocId
    ∧ (buildSystem cfgApi).1.processingLimiter.capacity
        = (drainAdmission (buildSystem cfgApi).2).capacity := by
  refine ⟨rfl, by decide, rfl⟩

/-- C7 — amended.  Immediate processing launched by Discovery is bounded by
a *dedicated* limiter allocated by the monitor — sized `worker_pool_size`
(clamped up to 1), the same size as but never the same channel as the
drain's general worker pool — and carries a 30-minute per-item timeout
independent of any configuration field. -/
theorem C7_immediate_admission (cfg : Config) :
    immediateAdmission (buildSystem cfg).1
      = some ((buildSystem cfg).1.processingLimiter, 1800)
    ∧ (buildSystem cfg).1.processingLimiter.allocId
        ≠ (drainAdmission (buildSystem cfg).2).allocId
    ∧ (buildSystem cfg).1.processingLimiter.capacity
        = (if cfg.workerPoolSize ≤ 0 then 1 else cfg.workerPoolSize) := by
  refine ⟨rfl, ?_, ?_⟩
  · simp [buildSystem, NewAccountMonitor, NewVideoProcessor, drainAdmission]
  · simp [buildSystem, NewAccountMonitor]

end AutoUpload
